import Mathlib

/-!
Verification of the pdf2html_test repository.

The repository contains six standalone PDF-to-HTML conversion scripts.  Each
script calls a third-party extraction library and serializes the extracted
content into an HTML string.  We embed the repository's own logic (string
assembly, styling flags, per-image error handling, page iteration) shallowly:
Python strings are modelled as lists of characters, and every value supplied
by the extraction library (text spans, page HTML fragments, image bytes
already base64-encoded, drawing records) is an explicit input of the model.
Library calls that may raise are modelled as Except-valued inputs.
-/

set_option maxRecDepth 20000

namespace Pdf2Html

/-- Python strings are modelled as lists of characters. -/
abbrev Str := List Char

/-- Test whether the first list is a prefix of the second (left-to-right scan). -/
def leadsWith : Str → Str → Bool
  | [], _ => true
  | _ :: _, [] => false
  | p :: ps, c :: cs => p == c && leadsWith ps cs

/-- Test whether the first list is a suffix of the second. -/
def trailsWith (p l : Str) : Bool :=
  leadsWith p.reverse l.reverse

/-- Test whether the pattern occurs contiguously anywhere in the list
(Python's substring operator on strings). -/
def memSub (pat : Str) : Str → Bool
  | [] => leadsWith pat []
  | c :: cs => leadsWith pat (c :: cs) || memSub pat cs

/-- The pattern occurs contiguously in the haystack. -/
def OccursIn (pat hay : Str) : Prop :=
  ∃ u v : Str, hay = u ++ pat ++ v

@[simp] theorem leadsWith_nil (l : Str) : leadsWith [] l = true := by
  cases l <;> rfl

theorem leadsWith_iff (p l : Str) : leadsWith p l = true ↔ ∃ t, l = p ++ t := by
  induction p generalizing l with
  | nil => simp
  | cons a ps ih =>
    cases l with
    | nil => simp [leadsWith]
    | cons c cs =>
      simp only [leadsWith, Bool.and_eq_true, beq_iff_eq, ih, List.cons_append,
        List.cons.injEq]
      constructor
      · rintro ⟨h₁, t, h₂⟩; exact ⟨t, h₁.symm, h₂⟩
      · rintro ⟨t, h₁, h₂⟩; exact ⟨h₁.symm, t, h₂⟩

theorem leadsWith_append_self (p t : Str) : leadsWith p (p ++ t) = true := by
  exact (leadsWith_iff p (p ++ t)).2 ⟨t, rfl⟩

theorem leadsWith_refl (p : Str) : leadsWith p p = true := by
  simpa using leadsWith_append_self p []

theorem leadsWith_of_left (p x y : Str) (h : leadsWith p x = true) :
    leadsWith p (x ++ y) = true := by
  obtain ⟨t, rfl⟩ := (leadsWith_iff p x).1 h
  exact (leadsWith_iff _ _).2 ⟨t ++ y, by simp⟩

theorem leadsWith_take (p x y : Str) (h : leadsWith p (x ++ y) = true) :
    leadsWith (p.take x.length) x = true := by
  induction p generalizing x y with
  | nil => simp
  | cons a ps ih =>
    cases x with
    | nil => simp
    | cons c cs =>
      simp only [List.cons_append, leadsWith, Bool.and_eq_true, beq_iff_eq] at h
      simp only [List.length_cons, List.take_succ_cons, leadsWith,
        Bool.and_eq_true, beq_iff_eq]
      exact ⟨h.1, ih cs y h.2⟩

/-- Contrapositive workhorse: a line of the form x ++ y cannot begin with the
pattern p when the visible concrete part x already disagrees with p. -/
theorem leadsWith_append_ff (p x y : Str) (h : leadsWith (p.take x.length) x = false) :
    leadsWith p (x ++ y) = false := by
  by_contra hc
  have h' := leadsWith_take p x y (by
    cases hl : leadsWith p (x ++ y) with
    | false => exact absurd hl hc
    | true => rfl)
  rw [h'] at h
  exact absurd h (by simp)

theorem memSub_iff (pat l : Str) : memSub pat l = true ↔ OccursIn pat l := by
  induction l with
  | nil =>
    simp only [memSub, OccursIn]
    rw [leadsWith_iff]
    constructor
    · rintro ⟨t, h⟩
      exact ⟨[], t, by simpa using h⟩
    · rintro ⟨u, v, h⟩
      refine ⟨v, ?_⟩
      have hu : u = [] := by
        cases u with
        | nil => rfl
        | cons a as => simp at h
      subst hu; simpa using h
  | cons c cs ih =>
    simp only [memSub, Bool.or_eq_true, ih, OccursIn]
    rw [leadsWith_iff]
    constructor
    · rintro (⟨t, h⟩ | ⟨u, v, h⟩)
      · exact ⟨[], t, by simpa using h⟩
      · exact ⟨c :: u, v, by simp [h]⟩
    · rintro ⟨u, v, h⟩
      cases u with
      | nil => exact Or.inl ⟨v, by simpa using h⟩
      | cons a as =>
        right
        simp only [List.cons_append, List.cons.injEq] at h
        exact ⟨as, v, h.2⟩

instance (pat hay : Str) : Decidable (OccursIn pat hay) :=
  decidable_of_iff (memSub pat hay = true) (memSub_iff pat hay)

theorem occursIn_append_left (pat x y : Str) (h : OccursIn pat x) :
    OccursIn pat (x ++ y) := by
  obtain ⟨u, v, rfl⟩ := h
  exact ⟨u, v ++ y, by simp⟩

theorem occursIn_append_right (pat x y : Str) (h : OccursIn pat y) :
    OccursIn pat (x ++ y) := by
  obtain ⟨u, v, rfl⟩ := h
  exact ⟨x ++ u, v, by simp⟩

theorem occursIn_trans (a b c : Str) (h₁ : OccursIn a b) (h₂ : OccursIn b c) :
    OccursIn a c := by
  obtain ⟨u, v, rfl⟩ := h₁
  obtain ⟨u', v', rfl⟩ := h₂
  exact ⟨u' ++ u, v ++ v', by simp⟩

theorem occursIn_self (a : Str) : OccursIn a a := ⟨[], [], by simp⟩

theorem mem_of_occursIn (pat hay : Str) (c : Char) (h : OccursIn pat hay)
    (hc : c ∈ pat) : c ∈ hay := by
  obtain ⟨u, v, rfl⟩ := h
  simp [hc]

/-- Split a character list into its lines at newline characters.  A string with
no newline yields the single fragment consisting of the whole string. -/
def splitNl : Str → List Str
  | [] => [[]]
  | c :: cs =>
    if c = '\n' then [] :: splitNl cs
    else
      match splitNl cs with
      | [] => [[c]]
      | l :: ls => (c :: l) :: ls

theorem splitNl_ne_nil (s : Str) : splitNl s ≠ [] := by
  cases s with
  | nil => simp [splitNl]
  | cons c cs =>
    simp only [splitNl]
    split
    · simp
    · split <;> simp

theorem splitNl_exists_cons (s : Str) : ∃ l ls, splitNl s = l :: ls := by
  cases h : splitNl s with
  | nil => exact absurd h (splitNl_ne_nil s)
  | cons l ls => exact ⟨l, ls, rfl⟩

/-- Splitting distributes over an explicit newline separator. -/
theorem splitNl_append_nl (x y : Str) :
    splitNl (x ++ '\n' :: y) = splitNl x ++ splitNl y := by
  induction x with
  | nil => simp [splitNl]
  | cons c cs ih =>
    by_cases hc : c = '\n'
    · subst hc
      simp [splitNl, ih]
    · obtain ⟨l, ls, h⟩ := splitNl_exists_cons cs
      have h' : splitNl (cs ++ '\n' :: y) = l :: (ls ++ splitNl y) := by
        rw [ih, h]; simp
      show splitNl (c :: (cs ++ '\n' :: y)) = splitNl (c :: cs) ++ splitNl y
      simp only [splitNl, if_neg hc, h, h']
      simp

/-- A newline-free string is a single line. -/
theorem splitNl_no_nl (x : Str) (h : '\n' ∉ x) : splitNl x = [x] := by
  induction x with
  | nil => simp [splitNl]
  | cons c cs ih =>
    simp only [List.mem_cons, not_or] at h
    simp [splitNl, Ne.symm h.1, ih h.2]

/-- Prepending a newline-free chunk merges into the first line. -/
theorem splitNl_merge_left (x d : Str) (hx : '\n' ∉ x) (l : Str) (ls : List Str)
    (hd : splitNl d = l :: ls) : splitNl (x ++ d) = (x ++ l) :: ls := by
  induction x with
  | nil => simpa using hd
  | cons c cs ih =>
    simp only [List.mem_cons, not_or] at hx
    have h' : splitNl (cs ++ d) = (cs ++ l) :: ls := ih hx.2
    show splitNl (c :: (cs ++ d)) = ((c :: cs) ++ l) :: ls
    simp only [splitNl, if_neg (Ne.symm hx.1), h']
    simp

/-- Appending a newline-free chunk merges into the last line. -/
theorem splitNl_merge_right (d x : Str) (hx : '\n' ∉ x) :
    ∃ ls l, splitNl d = ls ++ [l] ∧ splitNl (d ++ x) = ls ++ [l ++ x] := by
  induction d with
  | nil =>
    exact ⟨[], [], by simp [splitNl], by simpa using splitNl_no_nl x hx⟩
  | cons c cs ih =>
    obtain ⟨ls, l, h₁, h₂⟩ := ih
    by_cases hc : c = '\n'
    · subst hc
      exact ⟨[] :: ls, l, by simp [splitNl, h₁], by simp [splitNl, h₂]⟩
    · cases ls with
      | nil =>
        simp only [List.nil_append] at h₁ h₂
        refine ⟨[], c :: l, ?_, ?_⟩
        · simp [splitNl, if_neg hc, h₁]
        · simp [splitNl, if_neg hc, h₂]
      | cons a as =>
        refine ⟨(c :: a) :: as, l, ?_, ?_⟩
        · simp [splitNl, if_neg hc, h₁]
        · simp [splitNl, if_neg hc, h₂]

theorem intercalate_cons_cons (s : Str) (a b : Str) (t : List Str) :
    List.intercalate s (a :: b :: t) = a ++ s ++ List.intercalate s (b :: t) := by
  simp [List.intercalate, List.intersperse]

theorem intercalate_single (s a : Str) : List.intercalate s [a] = a := by
  simp [List.intercalate, List.intersperse]

/-- Lines of a newline-joined list of parts are the lines of the parts. -/
theorem splitNl_intercalate (parts : List Str) (h : parts ≠ []) :
    splitNl (List.intercalate ['\n'] parts) = parts.flatMap splitNl := by
  induction parts with
  | nil => exact absurd rfl h
  | cons a t ih =>
    cases t with
    | nil => simp [intercalate_single, List.flatMap]
    | cons b t' =>
      rw [intercalate_cons_cons]
      have : a ++ ['\n'] ++ List.intercalate ['\n'] (b :: t') =
          a ++ '\n' :: List.intercalate ['\n'] (b :: t') := by simp
      rw [this, splitNl_append_nl, ih (by simp)]
      simp [List.flatMap_cons]

theorem exists_append_last (s : Str) (xs : List Str) (a : Str) :
    ∃ X, List.intercalate s (xs ++ [a]) = X ++ a := by
  induction xs with
  | nil => exact ⟨[], by simp [intercalate_single]⟩
  | cons x t ih =>
    obtain ⟨X, hX⟩ := ih
    cases t with
    | nil =>
      refine ⟨x ++ s, ?_⟩
      show List.intercalate s (x :: [a]) = x ++ s ++ a
      rw [intercalate_cons_cons, intercalate_single]
    | cons b t' =>
      refine ⟨x ++ s ++ X, ?_⟩
      rw [List.cons_append] at hX ⊢
      rw [List.cons_append, intercalate_cons_cons, hX]
      simp

/-- Any member of a part list occurs in the newline-joined string. -/
theorem occursIn_intercalate (s : Str) (parts : List Str) (p : Str)
    (h : p ∈ parts) : OccursIn p (List.intercalate s parts) := by
  induction parts with
  | nil => simp at h
  | cons a t ih =>
    rcases List.mem_cons.1 h with rfl | hm
    · cases t with
      | nil => simpa [intercalate_single] using occursIn_self p
      | cons b t' =>
        rw [intercalate_cons_cons]
        exact occursIn_append_left _ _ _ (occursIn_append_left _ _ _ (occursIn_self p))
    · cases t with
      | nil => simp at hm
      | cons b t' =>
        rw [intercalate_cons_cons]
        exact occursIn_append_right _ _ _ (ih hm)

/-! Rendering of Python values into characters.  Python's str(int) and format
specifiers are modelled through Lean's decimal/hexadecimal digit lists. -/

/-- Decimal rendering of a natural number (Python's str on a non-negative int). -/
def natStr (n : Nat) : Str := Nat.toDigits 10 n

/-- Hexadecimal rendering padded to width 6 with zeros (Python's 06x format). -/
def hex06 (n : Nat) : Str :=
  List.replicate (6 - (Nat.toDigits 16 n).length) '0' ++ Nat.toDigits 16 n

theorem digitChar_ge (n : Nat) (h : 16 ≤ n) : Nat.digitChar n = '*' := by
  unfold Nat.digitChar
  repeat rw [if_neg (by omega)]

theorem digitChar_class (n : Nat) :
    Nat.digitChar n ∈ (("0123456789abcdef*").data) := by
  rcases Nat.lt_or_ge n 16 with h | h
  · interval_cases n <;> decide
  · rw [digitChar_ge n h]; decide

theorem toDigitsCore_class (b fuel : Nat) :
    ∀ (n : Nat) (acc : List Char) (c : Char), c ∈ Nat.toDigitsCore b fuel n acc →
      c ∈ acc ∨ ∃ m, c = Nat.digitChar m := by
  induction fuel with
  | zero =>
    intro n acc c h
    rw [Nat.toDigitsCore] at h
    exact Or.inl h
  | succ fuel ih =>
    intro n acc c h
    rw [Nat.toDigitsCore] at h
    split at h
    · rcases List.mem_cons.1 h with rfl | h'
      · exact Or.inr ⟨n % b, rfl⟩
      · exact Or.inl h'
    · rcases ih (n / b) (Nat.digitChar (n % b) :: acc) c h with h' | h'
      · rcases List.mem_cons.1 h' with rfl | h''
        · exact Or.inr ⟨n % b, rfl⟩
        · exact Or.inl h''
      · exact Or.inr h'

theorem toDigits_class (b n : Nat) (c : Char) (h : c ∈ Nat.toDigits b n) :
    ∃ m, c = Nat.digitChar m := by
  rcases toDigitsCore_class b (n + 1) n [] c (by simpa [Nat.toDigits] using h)
    with h' | h'
  · simp at h'
  · exact h'

theorem not_mem_digits (c : Char)
    (hc : c ∉ (("0123456789abcdef*").data)) (b n : Nat) :
    c ∉ Nat.toDigits b n := by
  intro h
  obtain ⟨m, rfl⟩ := toDigits_class b n c h
  exact hc (digitChar_class m)

theorem nl_not_mem_natStr (n : Nat) : '\n' ∉ natStr n :=
  not_mem_digits '\n' (by decide) 10 n

theorem nl_not_mem_hex06 (n : Nat) : '\n' ∉ hex06 n := by
  intro h
  rcases List.mem_append.1 h with h' | h'
  · exact absurd (List.eq_of_mem_replicate h') (by decide)
  · exact not_mem_digits '\n' (by decide) 16 n h'

/-! HTML escaping.  Models Python's html.escape with its default quote=True,
which replaces the five characters amp, lt, gt, double quote and apostrophe.
The sequential str.replace calls of the CPython implementation coincide with
this character-by-character map because no replacement output triggers a
later replacement. -/

/-- Escape one character as html.escape does. -/
def escapeChar (c : Char) : Str :=
  if c = '&' then ("&amp;").data
  else if c = '<' then ("&lt;").data
  else if c = '>' then ("&gt;").data
  else if c = '"' then ("&quot;").data
  else if c = Char.ofNat 39 then ("&#x27;").data
  else [c]

/-- Python html.escape on a whole string. -/
def htmlEscape (s : Str) : Str := s.flatMap escapeChar

/-- Characters that the five escape replacements can produce. -/
def escOut : List Char :=
  ['&', 'a', 'm', 'p', ';', 'l', 't', 'g', 'q', 'u', 'o', '#', 'x', '2', '7']

theorem mem_escapeChar (c d : Char) (h : d ∈ escapeChar c) :
    (d = c ∧ c ∉ (['&', '<', '>', '"', Char.ofNat 39] : List Char)) ∨
      d ∈ escOut := by
  unfold escapeChar at h
  split at h
  · exact Or.inr ((by decide : ∀ x ∈ ("&amp;").data, x ∈ escOut) d h)
  · split at h
    · exact Or.inr ((by decide : ∀ x ∈ ("&lt;").data, x ∈ escOut) d h)
    · split at h
      · exact Or.inr ((by decide : ∀ x ∈ ("&gt;").data, x ∈ escOut) d h)
      · split at h
        · exact Or.inr ((by decide : ∀ x ∈ ("&quot;").data, x ∈ escOut) d h)
        · split at h
          · exact Or.inr ((by decide : ∀ x ∈ ("&#x27;").data, x ∈ escOut) d h)
          · rw [List.mem_singleton] at h
            subst h
            refine Or.inl ⟨rfl, ?_⟩
            simp only [List.mem_cons, List.not_mem_nil, or_false]
            push_neg
            refine ⟨?_, ?_, ?_, ?_, ?_⟩ <;> assumption

theorem lt_not_mem_htmlEscape (s : Str) : '<' ∉ htmlEscape s := by
  intro h
  obtain ⟨c, _, hc⟩ := List.mem_flatMap.1 h
  rcases mem_escapeChar c '<' hc with ⟨rfl, hne⟩ | hmem
  · exact hne (by decide)
  · exact absurd hmem (by decide)

theorem nl_not_mem_htmlEscape (s : Str) (hs : '\n' ∉ s) : '\n' ∉ htmlEscape s := by
  intro h
  obtain ⟨c, hcs, hc⟩ := List.mem_flatMap.1 h
  rcases mem_escapeChar c '\n' hc with ⟨rfl, _⟩ | hmem
  · exact hs hcs
  · exact absurd hmem (by decide)

/-- Lowercasing a string (Python's str.lower; ASCII letters only, which is what
Char.toLower implements and what PDF font names contain). -/
def lowerStr (s : Str) : Str := s.map Char.toLower

/-! Path handling: the scripts derive the output name from the input path via
pathlib's Path(p).stem or equivalently os.path.splitext(os.path.basename(p))[0];
both keep a leading dot and drop the part after the last other dot. -/

/-- The part of a path after the last slash. -/
def lastComponent (p : Str) : Str :=
  (p.reverse.takeWhile (fun c => c != '/')).reverse

/-- Strip the extension after the last dot, keeping dotfiles whole. -/
def stemOf (b : Str) : Str :=
  match b.reverse.dropWhile (fun c => c != '.') with
  | [] => b
  | _ :: [] => b
  | _ :: rest => rest.reverse

/-- Path(p).stem of pathlib. -/
def fileStem (p : Str) : Str := stemOf (lastComponent p)

/-! Embedding of fritz_test2.py, class PDFToHTMLConverter.

The PyMuPDF library surface is modelled as explicit inputs: the dictionary
returned by page.get_text("dict") becomes a list of raw blocks, the work done
for one image inside the try of _extract_images (Pixmap creation, PNG/JPEG
conversion, base64 encoding, rect lookup) becomes one Except-valued attempt
whose ok value carries the fields the code stores, and page.get_drawings()
becomes an Except-valued list of raw paths.  Bounding boxes are carried by the
Python dicts but never read by the HTML generation, so they are omitted from
the records here. -/

namespace Fritz2

/-- One span of the library's get_text("dict") output: the fields the code
reads (text, font, size, color).  Sizes are modelled as naturals. -/
structure RawSpan where
  text : Str
  font : Str
  size : Nat
  color : Nat

/-- One line of the library dictionary. -/
structure RawLine where
  spans : List RawSpan

/-- One block of the library dictionary: blocks with a "lines" key are text
blocks, the others (image blocks) carry nothing the code reads. -/
inductive RawBlock where
  | text (lines : List RawLine)
  | other

/-- The font_info dictionary built per span by _extract_text_blocks. -/
structure FontInfo where
  font : Str
  size : Nat
  color : Nat
  bold : Bool
  italic : Bool

/-- The span_data dictionary (bbox omitted: never read downstream). -/
structure SpanData where
  text : Str
  font_info : FontInfo

/-- The block_data dictionary: a type tag (always "text" for extracted
blocks) and the per-line span lists (bboxes omitted: never read). -/
structure TextBlock where
  btype : Str
  lines : List (List SpanData)

/-- Font information extraction for one span (lines 170-176 of the source):
bold iff "bold" occurs in the lowercased font name, italic likewise. -/
def extractFontInfo (s : RawSpan) : FontInfo :=
  { font := s.font
    size := s.size
    color := s.color
    bold := memSub (("bold").data) (lowerStr s.font)
    italic := memSub (("italic").data) (lowerStr s.font) }

/-- The span_data record built per span. -/
def extractSpanData (s : RawSpan) : SpanData :=
  { text := s.text, font_info := extractFontInfo s }

/-- PDFToHTMLConverter._extract_text_blocks: keep the blocks that have lines,
tag them "text", and extract per-span formatting. -/
def extractTextBlocks (blocks : List RawBlock) : List TextBlock :=
  blocks.filterMap (fun b =>
    match b with
    | .text lines =>
        some { btype := ("text").data
               lines := lines.map (fun l => l.spans.map extractSpanData) }
    | .other => none)

/-- The data stored for one successfully extracted image: pixel format,
base64 payload, and pixmap dimensions (placement rects omitted: stored by
the code but never read by the HTML generation). -/
structure ImageData where
  format : Str
  data : Str
  width : Nat
  height : Nat

/-- The image_info dictionary appended per image. -/
structure ImageInfo where
  index : Nat
  page : Nat
  format : Str
  data : Str
  width : Nat
  height : Nat

/-- PDFToHTMLConverter._extract_images: iterate over the images of a page with
their enumeration index; an attempt that raises is caught, a warning recorded
(self.logger.warning), the image skipped, and the loop continues.  Returns the
extracted images together with the warnings logged. -/
def extractImagesFrom (pageNum : Nat) : Nat → List (Except Str ImageData) →
    List ImageInfo × List Str
  | _, [] => ([], [])
  | i, .ok d :: rest =>
    let r := extractImagesFrom pageNum (i + 1) rest
    ({ index := i, page := pageNum, format := d.format, data := d.data,
       width := d.width, height := d.height } :: r.1, r.2)
  | i, .error e :: rest =>
    let r := extractImagesFrom pageNum (i + 1) rest
    (r.1,
      (("Could not extract image ").data ++ natStr i ++ (" from page ").data ++
        natStr pageNum ++ (": ").data ++ e) :: r.2)

/-- One raw path from page.get_drawings() (rect omitted as for the others). -/
structure RawDrawing where
  strokeColor : Option Nat
  fillColor : Option Nat
  width : Nat

/-- The drawing_info dictionary built per path. -/
structure DrawingInfo where
  dtype : Str
  strokeColor : Option Nat
  fillColor : Option Nat
  width : Nat

/-- PDFToHTMLConverter._extract_drawings: the whole get_drawings call is
wrapped in try/except; on failure a warning is logged and the empty list is
returned. -/
def extractDrawings (r : Except Str (List RawDrawing)) : List DrawingInfo :=
  match r with
  | .ok paths => paths.map (fun p =>
      { dtype := ("drawing").data, strokeColor := p.strokeColor,
        fillColor := p.fillColor, width := p.width })
  | .error _ => []

/-- The library surface of one page: page.rect dimensions, the
get_text("dict") result (uncaught on failure), the per-image attempts, and
the get_drawings result (caught on failure). -/
structure RawPage where
  width : Nat
  height : Nat
  textDict : Except Str (List RawBlock)
  imageAttempts : List (Except Str ImageData)
  drawingsResult : Except Str (List RawDrawing)

/-- The per-page content dictionary built by _extract_page_content. -/
structure PageContent where
  pageNum : Nat
  width : Nat
  height : Nat
  textBlocks : List TextBlock
  images : List ImageInfo
  drawings : List DrawingInfo

/-- PDFToHTMLConverter._extract_page_content: a get_text failure propagates;
image failures were already handled per image; a drawings failure was already
handled inside _extract_drawings. -/
def extractPageContent (page : RawPage) (pageNum : Nat) :
    Except Str PageContent :=
  match page.textDict with
  | .error e => .error e
  | .ok bs =>
    .ok { pageNum := pageNum
          width := page.width
          height := page.height
          textBlocks := extractTextBlocks bs
          images := (extractImagesFrom pageNum 0 page.imageAttempts).1
          drawings := extractDrawings page.drawingsResult }

/-- PDFToHTMLConverter._extract_content_from_pdf: pages in order, numbered
from 0; the first failing page aborts the whole extraction. -/
def extractPagesFrom (i : Nat) : List RawPage → Except Str (List PageContent)
  | [] => .ok []
  | p :: ps =>
    match extractPageContent p i with
    | .error e => .error e
    | .ok pc =>
      match extractPagesFrom (i + 1) ps with
      | .error e => .error e
      | .ok pcs => .ok (pc :: pcs)

/-- The content dictionary (metadata and the unused fonts set omitted). -/
structure PdfContent where
  pages : List PageContent

/-! HTML generation (lines 278-550 of fritz_test2.py). -/

/-- The class attribute fragment: empty when there are no classes, otherwise
the space-joined class list (the list always contains "text-span", so the
guard never fires, exactly as in the source). -/
def classAttr (classes : List Str) : Str :=
  if classes = [] then []
  else (" class=\"").data ++ List.intercalate ([' ']) classes ++ ("\"").data

/-- The CSS class list of one span. -/
def spanClasses (fi : FontInfo) : List Str :=
  (("text-span").data) ::
    ((if fi.bold then [("bold").data] else []) ++
      (if fi.italic then [("italic").data] else []))

/-- The font-size inline style entry. -/
def fontSizeStyle (n : Nat) : Str :=
  ("font-size: ").data ++ natStr n ++ ("px").data

/-- The color inline style entry, 6-digit zero-padded lowercase hex. -/
def colorStyle (c : Nat) : Str :=
  ("color: #").data ++ hex06 c

/-- The inline style list of one span: font-size when the size differs from
the default 12, color when the packed integer differs from 0 (black). -/
def spanStyles (fi : FontInfo) : List Str :=
  (if fi.size ≠ 12 then [fontSizeStyle fi.size] else []) ++
    (if fi.color ≠ 0 then [colorStyle fi.color] else [])

/-- The style attribute fragment: absent when no style entry applies. -/
def styleAttr (fi : FontInfo) : Str :=
  if spanStyles fi = [] then []
  else (" style=\"").data ++ List.intercalate (("; ").data) (spanStyles fi) ++
    ("\"").data

/-- The span element: classes, styles, and the html-escaped text. -/
def genSpanHtml (s : SpanData) : Str :=
  ("<span").data ++ classAttr (spanClasses s.font_info) ++
    styleAttr s.font_info ++ (">").data ++ htmlEscape s.text ++
    ("</span>").data

/-- PDFToHTMLConverter._generate_text_block_html: one div, one physical line
per non-empty span line, newline-joined. -/
def genTextBlockHtml (b : TextBlock) : Str :=
  List.intercalate (['\n'])
    ((("<div class=\"text-block\">").data) ::
      (b.lines.filterMap (fun l =>
        match l with
        | [] => none
        | _ :: _ => some ((l.map genSpanHtml).flatten)) ++
        [("</div>").data]))

/-- PDFToHTMLConverter._generate_image_html: base64 data URI in an img tag. -/
def genImageHtml (im : ImageInfo) : Str :=
  ("<div class=\"image-container\">\n                <img src=\"data:image/").data
    ++ im.format ++ ((";base64,").data) ++ im.data ++
    ("\" \n                     alt=\"PDF Image ").data ++ natStr im.index ++
    ("\" \n                     class=\"pdf-image\"\n                     width=\"").data
    ++ natStr im.width ++ ("\" \n                     height=\"").data ++
    natStr im.height ++ ("\">\n            </div>").data

/-- The opening line of the page container div for 1-based page number k. -/
def pageDivLine (k : Nat) : Str :=
  ("        <div class=\"pdf-page\" id=\"page-").data ++ natStr k ++ ("\">").data

/-- The page-number badge line for 1-based page number k. -/
def pageNumberLine (k : Nat) : Str :=
  ("            <div class=\"page-number\">Page ").data ++ natStr k ++
    ("</div>").data

/-- PDFToHTMLConverter._generate_page_html: container line, page number line,
the text blocks whose type tag is "text", the images, and the closing div. -/
def genPageHtml (pc : PageContent) : Str :=
  List.intercalate (['\n'])
    ([pageDivLine (pc.pageNum + 1), pageNumberLine (pc.pageNum + 1)] ++
      pc.textBlocks.filterMap (fun b =>
        if b.btype = ("text").data
        then some ((("            ").data) ++ genTextBlockHtml b) else none) ++
      pc.images.map (fun im => (("            ").data) ++ genImageHtml im) ++
      [("        </div>").data])

/-- PDFToHTMLConverter._generate_body_html: pages in order, newline-joined. -/
def genBodyHtml (c : PdfContent) : Str :=
  List.intercalate (['\n']) (c.pages.map genPageHtml)

/-- The CSS block returned by _generate_css (verbatim from the source). -/
def cssString : String :=
  "\n        body \x7b\n            font-family: Arial, sans-serif;\n            margin: 0;\n            padding: 20px;\n            background-color: #f5f5f5;\n        \x7d\n        \n        .pdf-container \x7b\n            max-width: 1200px;\n            margin: 0 auto;\n            background-color: white;\n            box-shadow: 0 0 10px rgba(0, 0, 0, 0.1);\n            border-radius: 8px;\n            overflow: hidden;\n        \x7d\n        \n        .pdf-title \x7b\n            background-color: #2c3e50;\n            color: white;\n            padding: 20px;\n            margin: 0;\n            font-size: 24px;\n            font-weight: bold;\n        \x7d\n        \n        .pdf-page \x7b\n            padding: 20px;\n            border-bottom: 2px solid #ecf0f1;\n            position: relative;\n            min-height: 400px;\n        \x7d\n        \n        .pdf-page:last-child \x7b\n            border-bottom: none;\n        \x7d\n        \n        .page-number \x7b\n            position: absolute;\n            top: 10px;\n            right: 20px;\n            background-color: #3498db;\n            color: white;\n            padding: 5px 10px;\n            border-radius: 15px;\n            font-size: 12px;\n            font-weight: bold;\n        \x7d\n        \n        .text-block \x7b\n            margin: 10px 0;\n            line-height: 1.4;\n        \x7d\n        \n        .text-span \x7b\n            display: inline;\n        \x7d\n        \n        .bold \x7b\n            font-weight: bold;\n        \x7d\n        \n        .italic \x7b\n            font-style: italic;\n        \x7d\n        \n        .pdf-image \x7b\n            max-width: 100%;\n            height: auto;\n            display: block;\n            margin: 15px 0;\n            border: 1px solid #ddd;\n            border-radius: 4px;\n        \x7d\n        \n        .image-container \x7b\n            text-align: center;\n            margin: 20px 0;\n        \x7d\n        \n        .drawing-element \x7b\n            position: absolute;\n            border: 1px solid #ccc;\n        \x7d\n        \n        @media print \x7b\n            .pdf-container \x7b\n                box-shadow: none;\n                border-radius: 0;\n            \x7d\n            \n            .pdf-page \x7b\n                page-break-after: always;\n            \x7d\n            \n            .pdf-page:last-child \x7b\n                page-break-after: auto;\n            \x7d\n        \x7d\n        "

/-- Template text before the first title interpolation. -/
def tplA : Str :=
  ("<!DOCTYPE html>\n<html lang=\"en\">\n<head>\n    <meta charset=\"UTF-8\">\n    <meta name=\"viewport\" content=\"width=device-width, initial-scale=1.0\">\n    <title>").data

/-- Template text between the title and the h1 interpolations, with the CSS
block inlined. -/
def tplB : Str :=
  ("</title>\n    <style>\n").data ++ cssString.data ++
    ("\n    </style>\n</head>\n<body>\n    <div class=\"pdf-container\">\n        <h1 class=\"pdf-title\">").data

/-- Template text between the h1 interpolation and the body. -/
def tplC : Str := ("</h1>\n").data

/-- Template text after the body. -/
def tplD : Str := ("\n    </div>\n</body>\n</html>").data

/-- PDFToHTMLConverter._generate_complete_html: the f-string template with
the escaped pdf name interpolated twice and the body in the container div. -/
def genCompleteHtml (c : PdfContent) (pdfName : Str) : Str :=
  tplA ++ htmlEscape pdfName ++ tplB ++ htmlEscape pdfName ++ tplC ++
    genBodyHtml c ++ tplD

/-! The converter class and its top-level entry point. -/

/-- The converter object: the two constructor flags (the logger field is
configuration only). -/
structure Converter where
  embed_fonts : Bool
  preserve_layout : Bool

/-- The error taxonomy of convert_pdf_to_html: the explicit FileNotFoundError,
a library exception re-raised after logging, or a write failure re-raised
after logging. -/
inductive ConvError where
  | fileNotFound (msg : Str)
  | libError (msg : Str)
  | writeError (msg : Str)

/-- The environment of one conversion run: whether os.path.exists holds for
the input, the fitz.open outcome, and the file write outcome. -/
structure ConvEnv where
  pdfExists : Bool
  openResult : Except Str (List RawPage)
  writeResult : Except Str Unit

/-- PDFToHTMLConverter.convert_pdf_to_html.  Returns the conversion outcome
together with the list of (path, contents) file writes performed.  The method
reads none of the converter's flags, exactly as in the source. -/
def Converter.convert_pdf_to_html (_self : Converter) (env : ConvEnv)
    (pdfPath : Str) (outputPath : Option Str) :
    Except ConvError Str × List (Str × Str) :=
  if env.pdfExists = false then
    (.error (.fileNotFound ((("PDF file not found: ").data) ++ pdfPath)), [])
  else
    match env.openResult with
    | .error e => (.error (.libError e), [])
    | .ok rawPages =>
      match extractPagesFrom 0 rawPages with
      | .error e => (.error (.libError e), [])
      | .ok pcs =>
        let fullHtml := genCompleteHtml { pages := pcs } (fileStem pdfPath)
        let outPath :=
          match outputPath with
          | none => fileStem pdfPath ++ (".html").data
          | some op => op
        match env.writeResult with
        | .error e => (.error (.writeError e), [])
        | .ok _ => (.ok outPath, [(outPath, fullHtml)])

/-- The module-level convenience function convert_pdf_to_html: constructs a
converter with the two flags and delegates. -/
def convert_pdf_to_html (pdfPath : Str) (outputPath : Option Str)
    (embed_fonts preserve_layout : Bool) (env : ConvEnv) :
    Except ConvError Str × List (Str × Str) :=
  (Converter.mk embed_fonts preserve_layout).convert_pdf_to_html env pdfPath
    outputPath

end Fritz2

/-- The observable outcome of running one of the simple scripts: the returned
value, whether an error was printed, and the file writes and directory
creations performed. -/
structure RunOutcome where
  returned : Option Str
  errorReported : Bool
  fileWrites : List (Str × Str)
  dirsCreated : List Str

/-! Embedding of fritz_test.py: fitz page.get_text("html") per page, one
page div per page, everything inside one try/except that prints the error. -/

namespace FritzT

/-- The header part appended first (verbatim from the triple-quoted string,
including its leading and trailing newline). -/
def headerString : String :=
  "\n<!DOCTYPE html>\n<html>\n<head>\n    <meta charset=\"utf-8\">\n    <style>\n        body \x7b font-family: Arial, sans-serif; \x7d\n        .page \x7b margin: 1em; padding: 1em; border-bottom: 1px solid #ddd; \x7d\n        pre \x7b white-space: pre-wrap; \x7d\n        table \x7b border-collapse: collapse; \x7d\n        td, th \x7b border: 1px solid #ddd; padding: 8px; \x7d\n    </style>\n</head>\n<body>\n"

/-- The page container line for 1-based page number k (shared with
pdfplumber_test.py, which emits the same div). -/
def pageDivLine (k : Nat) : Str :=
  ("<div class=\"page\" id=\"page-").data ++ natStr k ++ ("\">").data

/-- The parts appended per page: container line, the library's page HTML,
closing div; pages enumerated from 1. -/
def pageParts : Nat → List Str → List Str
  | _, [] => []
  | i, ph :: rest =>
    pageDivLine (i + 1) :: ph :: (("</div>").data) :: pageParts (i + 1) rest

/-- The complete joined document ("\n".join(html_content)). -/
def docHtml (pages : List Str) : Str :=
  List.intercalate (['\n'])
    ((headerString.data :: pageParts 0 pages) ++ [("</body></html>").data])

/-- convert_pdf_to_html of fritz_test.py: makedirs first, then the open; an
exception anywhere in the try is caught and printed to stderr, and the
function always returns None. -/
def convert (openResult : Except Str (List Str)) (pdfPath outputFolder : Str) :
    RunOutcome :=
  match openResult with
  | .error _ =>
    { returned := none, errorReported := true, fileWrites := [],
      dirsCreated := [outputFolder] }
  | .ok pages =>
    { returned := none, errorReported := false,
      fileWrites := [(outputFolder ++ '/' :: (fileStem pdfPath ++ (".html").data),
        docHtml pages)],
      dirsCreated := [outputFolder] }

end FritzT

/-! Embedding of pdfplumber_test.py: page.extract_text() per page, raw
(unescaped) text inside a pre element, skipped when None or empty. -/

namespace Plumber

/-- The header appended first (verbatim from the source string). -/
def headerString : String :=
  "<!DOCTYPE html>\n<html>\n<head>\n<meta charset=\"utf-8\">\n<title>PDF to HTML</title>\n<style>\nbody \x7b font-family: sans-serif; margin: 20px; \x7d\n.page \x7b margin-bottom: 20px; border: 1px solid #eee; padding: 15px; \x7d\n.text-block \x7b margin-bottom: 10px; \x7d\n.image-container \x7b text-align: center; margin: 10px 0; \x7d\nimg \x7b max-width: 100%; height: auto; border: 1px solid #ddd; \x7d\n</style>\n</head>\n<body>"

/-- The parts appended per page: container div, h2 header, and, when
extract_text returned a non-empty string, a text block with the raw text in
a pre element; Python's truthiness skips both None and the empty string. -/
def pagePartsOne (i : Nat) (t : Option Str) : List Str :=
  [FritzT.pageDivLine (i + 1),
    (("<h2>Page ").data) ++ natStr (i + 1) ++ (("</h2>").data)] ++
  (match t with
    | some txt =>
      if txt.isEmpty then []
      else [(("<div class=\"text-block\">").data),
        (("<pre>").data) ++ txt ++ (("</pre>").data),
        (("</div>").data)]
    | none => []) ++
  [("</div>").data]

/-- All per-page parts, pages enumerated from 0 as in the source. -/
def pageParts : Nat → List (Option Str) → List Str
  | _, [] => []
  | i, t :: rest => pagePartsOne i t ++ pageParts (i + 1) rest

/-- The complete joined document. -/
def docHtml (pages : List (Option Str)) : Str :=
  List.intercalate (['\n'])
    ((headerString.data :: pageParts 0 pages) ++ [("</body>\n</html>").data])

/-- convert_pdf_to_html of pdfplumber_test.py: an exception is caught and
printed and None is returned; on success the output path is returned. -/
def convert (openResult : Except Str (List (Option Str)))
    (pdfPath outputFolder : Str) : RunOutcome :=
  match openResult with
  | .error _ =>
    { returned := none, errorReported := true, fileWrites := [],
      dirsCreated := [outputFolder] }
  | .ok pages =>
    let outPath := outputFolder ++ '/' :: (fileStem pdfPath ++ (".html").data)
    { returned := some outPath, errorReported := false,
      fileWrites := [(outPath, docHtml pages)],
      dirsCreated := [outputFolder] }

end Plumber

/-! Embedding of new.py: page.get_text("html") fragments concatenated with no
separator, wrapped in a bare html/body pair with no DOCTYPE and no head. -/

namespace NewPy

/-- The complete document written by new.py's convert_pdf_to_html. -/
def docHtml (pages : List Str) : Str :=
  ("<html><body>").data ++ pages.flatten ++ ("</body></html>").data

end NewPy

/-! Claim theorems. -/

theorem mem_spanClasses_bold (fi : Fritz2.FontInfo) :
    (("bold").data) ∈ Fritz2.spanClasses fi ↔ fi.bold = true := by
  unfold Fritz2.spanClasses
  by_cases hb : fi.bold <;> by_cases hi : fi.italic <;> simp [hb, hi]

theorem mem_spanClasses_italic (fi : Fritz2.FontInfo) :
    (("italic").data) ∈ Fritz2.spanClasses fi ↔ fi.italic = true := by
  unfold Fritz2.spanClasses
  by_cases hb : fi.bold <;> by_cases hi : fi.italic <;> simp [hb, hi]

/-- C1: a span's generated element carries the class "bold" exactly when the
substring "bold" occurs in the lowercased font name, and the class "italic"
exactly when "italic" occurs there; the lowercasing makes the match
case-insensitive, exactly as the source's font.lower() does.  The class list
is the one _generate_text_block_html joins into the span's class attribute,
and the flags are the ones _extract_text_blocks computed. -/
theorem spec_C1 (s : Fritz2.RawSpan) :
    ((("bold").data) ∈ Fritz2.spanClasses (Fritz2.extractFontInfo s) ↔
      OccursIn (("bold").data) (lowerStr s.font)) ∧
    ((("italic").data) ∈ Fritz2.spanClasses (Fritz2.extractFontInfo s) ↔
      OccursIn (("italic").data) (lowerStr s.font)) := by
  constructor
  · rw [mem_spanClasses_bold]
    rw [show (Fritz2.extractFontInfo s).bold =
      memSub (("bold").data) (lowerStr s.font) from rfl]
    exact memSub_iff _ _
  · rw [mem_spanClasses_italic]
    rw [show (Fritz2.extractFontInfo s).italic =
      memSub (("italic").data) (lowerStr s.font) from rfl]
    exact memSub_iff _ _

theorem not_mem_natStr (c : Char)
    (hc : c ∉ (("0123456789abcdef*").data)) (n : Nat) :
    c ∉ natStr n :=
  not_mem_digits c hc 10 n

theorem not_mem_hex06 (c : Char)
    (hc : c ∉ (("0123456789abcdef*").data)) (n : Nat) :
    c ∉ hex06 n := by
  intro h
  rcases List.mem_append.1 h with h' | h'
  · have hc0 : c = '0' := List.eq_of_mem_replicate h'
    subst hc0
    exact hc (by decide)
  · exact not_mem_digits c hc 16 n h'

theorem not_occursIn_of_char (pat hay : Str) (c : Char) (hc : c ∈ pat)
    (hh : c ∉ hay) : ¬ OccursIn pat hay :=
  fun h => hh (mem_of_occursIn pat hay c h hc)

theorem dash_not_mem_colorAttr (c : Nat) :
    '-' ∉ ((" style=\"").data ++ Fritz2.colorStyle c ++ ("\"").data) := by
  intro h
  rcases List.mem_append.1 h with h' | h'
  · rcases List.mem_append.1 h' with h'' | h''
    · exact absurd h'' (by decide)
    · unfold Fritz2.colorStyle at h''
      rcases List.mem_append.1 h'' with h₃ | h₃
      · exact absurd h₃ (by decide)
      · exact not_mem_hex06 '-' (by decide) c h₃
  · exact absurd h' (by decide)

theorem hash_not_mem_sizeAttr (n : Nat) :
    '#' ∉ ((" style=\"").data ++ Fritz2.fontSizeStyle n ++ ("\"").data) := by
  intro h
  rcases List.mem_append.1 h with h' | h'
  · rcases List.mem_append.1 h' with h'' | h''
    · exact absurd h'' (by decide)
    · unfold Fritz2.fontSizeStyle at h''
      rcases List.mem_append.1 h'' with h₃ | h₃
      · rcases List.mem_append.1 h₃ with h₄ | h₄
        · exact absurd h₄ (by decide)
        · exact not_mem_natStr '#' (by decide) n h₄
      · exact absurd h₃ (by decide)
  · exact absurd h' (by decide)

/-- C2: the span's inline style attribute contains the font-size entry exactly
when the size differs from the default 12, contains the color entry (a hash
followed by the 6-digit zero-padded hex of the packed integer) exactly when
the color differs from 0, and is entirely absent when size is 12 and color
is 0. -/
theorem spec_C2 (fi : Fritz2.FontInfo) :
    (OccursIn (Fritz2.fontSizeStyle fi.size) (Fritz2.styleAttr fi) ↔
      fi.size ≠ 12) ∧
    (OccursIn (Fritz2.colorStyle fi.color) (Fritz2.styleAttr fi) ↔
      fi.color ≠ 0) ∧
    (Fritz2.styleAttr fi = [] ↔ (fi.size = 12 ∧ fi.color = 0)) := by
  by_cases hs : fi.size = 12 <;> by_cases hc : fi.color = 0
  · have hstyles : Fritz2.spanStyles fi = [] := by
      unfold Fritz2.spanStyles
      simp [hs, hc]
    have hattr : Fritz2.styleAttr fi = [] := by
      unfold Fritz2.styleAttr
      simp [hstyles]
    refine ⟨?_, ?_, ?_⟩
    · rw [hattr]
      simp only [hs, ne_eq, not_true_eq_false, iff_false]
      exact not_occursIn_of_char _ _ 'f' (by
        unfold Fritz2.fontSizeStyle
        exact List.mem_append.2 (Or.inl (List.mem_append.2 (Or.inl (by decide))))) (by simp)
    · rw [hattr]
      simp only [hc, ne_eq, not_true_eq_false, iff_false]
      exact not_occursIn_of_char _ _ 'c' (by
        unfold Fritz2.colorStyle
        exact List.mem_append.2 (Or.inl (by decide))) (by simp)
    · simp [hattr, hs, hc]
  · have hstyles : Fritz2.spanStyles fi = [Fritz2.colorStyle fi.color] := by
      unfold Fritz2.spanStyles
      simp [hs, hc]
    have hattr : Fritz2.styleAttr fi =
        (" style=\"").data ++ Fritz2.colorStyle fi.color ++ ("\"").data := by
      unfold Fritz2.styleAttr
      rw [hstyles]
      simp [intercalate_single]
    refine ⟨?_, ?_, ?_⟩
    · rw [hattr]
      simp only [hs, ne_eq, not_true_eq_false, iff_false]
      refine not_occursIn_of_char _ _ '-' ?_ (dash_not_mem_colorAttr fi.color)
      unfold Fritz2.fontSizeStyle
      exact List.mem_append.2 (Or.inl (List.mem_append.2 (Or.inl (by decide))))
    · rw [hattr]
      simp only [hc, ne_eq, not_false_eq_true, iff_true]
      exact ⟨(" style=\"").data, ("\"").data, by simp⟩
    · rw [hattr]
      simp [hs, hc]
  · have hstyles : Fritz2.spanStyles fi = [Fritz2.fontSizeStyle fi.size] := by
      unfold Fritz2.spanStyles
      simp [hs, hc]
    have hattr : Fritz2.styleAttr fi =
        (" style=\"").data ++ Fritz2.fontSizeStyle fi.size ++ ("\"").data := by
      unfold Fritz2.styleAttr
      rw [hstyles]
      simp [intercalate_single]
    refine ⟨?_, ?_, ?_⟩
    · rw [hattr]
      simp only [hs, ne_eq, not_false_eq_true, iff_true]
      exact ⟨(" style=\"").data, ("\"").data, by simp⟩
    · rw [hattr]
      simp only [hc, ne_eq, not_true_eq_false, iff_false]
      refine not_occursIn_of_char _ _ '#' ?_ (hash_not_mem_sizeAttr fi.size)
      unfold Fritz2.colorStyle
      exact List.mem_append.2 (Or.inl (by decide))
    · rw [hattr]
      simp [hs, hc]
  · have hstyles : Fritz2.spanStyles fi =
        [Fritz2.fontSizeStyle fi.size, Fritz2.colorStyle fi.color] := by
      unfold Fritz2.spanStyles
      simp [hs, hc]
    have hattr : Fritz2.styleAttr fi =
        (" style=\"").data ++ (Fritz2.fontSizeStyle fi.size ++ (("; ").data) ++
          Fritz2.colorStyle fi.color) ++ ("\"").data := by
      unfold Fritz2.styleAttr
      rw [hstyles]
      rw [if_neg (by simp)]
      rw [intercalate_cons_cons, intercalate_single]
    refine ⟨?_, ?_, ?_⟩
    · rw [hattr]
      simp only [hs, ne_eq, not_false_eq_true, iff_true]
      exact ⟨(" style=\"").data,
        (("; ").data) ++ Fritz2.colorStyle fi.color ++ ("\"").data, by simp⟩
    · rw [hattr]
      simp only [hc, ne_eq, not_false_eq_true, iff_true]
      exact ⟨(" style=\"").data ++ Fritz2.fontSizeStyle fi.size ++ (("; ").data),
        ("\"").data, by simp⟩
    · rw [hattr]
      simp [hs, hc]

/-- C3: the per-image try/except.  First conjunct: a failing image attempt is
skipped, exactly one warning is logged for it, and the images before and
after it are extracted unchanged (with their enumeration indices).  Second
conjunct: page extraction succeeds whatever the image attempts are.  Third
conjunct: a whole document containing failing image attempts still converts
successfully and writes its output.  Remaining conjuncts: an exception
anywhere else (fitz.open, page.get_text("dict") on any page, the file write)
propagates out of convert_pdf_to_html as an error with no file written. -/
theorem spec_C3 :
    (∀ (pn i : Nat) (xs : List (Except Str Fritz2.ImageData)) (e : Str)
        (ys : List (Except Str Fritz2.ImageData)),
      Fritz2.extractImagesFrom pn i (xs ++ .error e :: ys) =
        ((Fritz2.extractImagesFrom pn i xs).1 ++
          (Fritz2.extractImagesFrom pn (i + xs.length + 1) ys).1,
         (Fritz2.extractImagesFrom pn i xs).2 ++
          ((("Could not extract image ").data ++ natStr (i + xs.length) ++
            (" from page ").data ++ natStr pn ++ ((": ").data) ++ e) ::
            (Fritz2.extractImagesFrom pn (i + xs.length + 1) ys).2))) ∧
    (∀ (w h pn : Nat) (bs : List Fritz2.RawBlock)
        (atts : List (Except Str Fritz2.ImageData))
        (dr : Except Str (List Fritz2.RawDrawing)),
      ∃ pc, Fritz2.extractPageContent ⟨w, h, .ok bs, atts, dr⟩ pn = .ok pc) ∧
    (∀ (w h : Nat) (bs : List Fritz2.RawBlock)
        (atts : List (Except Str Fritz2.ImageData))
        (dr : Except Str (List Fritz2.RawDrawing)) (cv : Fritz2.Converter)
        (p : Str) (o : Option Str),
      ∃ out content,
        cv.convert_pdf_to_html ⟨true, .ok [⟨w, h, .ok bs, atts, dr⟩], .ok ()⟩ p o =
          (.ok out, [(out, content)])) ∧
    (∀ (e : Str) (wr : Except Str Unit) (cv : Fritz2.Converter) (p : Str)
        (o : Option Str),
      cv.convert_pdf_to_html ⟨true, .error e, wr⟩ p o =
        (.error (.libError e), [])) ∧
    (∀ (i : Nat) (xs : List Fritz2.RawPage) (w h : Nat) (e : Str)
        (atts : List (Except Str Fritz2.ImageData))
        (dr : Except Str (List Fritz2.RawDrawing)) (ys : List Fritz2.RawPage),
      ∃ msg, Fritz2.extractPagesFrom i
        (xs ++ (⟨w, h, .error e, atts, dr⟩ : Fritz2.RawPage) :: ys) =
          .error msg) ∧
    (∀ (e : Str) (cv : Fritz2.Converter) (p : Str) (o : Option Str),
      cv.convert_pdf_to_html ⟨true, .ok [], .error e⟩ p o =
        (.error (.writeError e), [])) := by
  refine ⟨?_, ?_, ?_, ?_, ?_, ?_⟩
  · intro pn i xs e ys
    induction xs generalizing i with
    | nil =>
      simp only [List.nil_append, List.length_nil, Nat.add_zero]
      rfl
    | cons a xs' ih =>
      cases a with
      | ok d =>
        show Fritz2.extractImagesFrom pn i (.ok d :: (xs' ++ .error e :: ys)) = _
        rw [Fritz2.extractImagesFrom, ih (i + 1)]
        rw [Fritz2.extractImagesFrom]
        have h₁ : i + 1 + xs'.length = i + (xs'.length + 1) := by omega
        simp [h₁]
      | error e' =>
        show Fritz2.extractImagesFrom pn i (.error e' :: (xs' ++ .error e :: ys)) = _
        rw [Fritz2.extractImagesFrom, ih (i + 1)]
        rw [Fritz2.extractImagesFrom]
        have h₁ : i + 1 + xs'.length = i + (xs'.length + 1) := by omega
        simp [h₁]
  · intro w h pn bs atts dr
    exact ⟨_, rfl⟩
  · intro w h bs atts dr cv p o
    exact ⟨_, _, rfl⟩
  · intro e wr cv p o
    rfl
  · intro i xs
    induction xs generalizing i with
    | nil => intro w h e atts dr ys; exact ⟨e, rfl⟩
    | cons a xs' ih =>
      intro w h e atts dr ys
      show ∃ msg, Fritz2.extractPagesFrom i (a :: (xs' ++ _ :: ys)) = .error msg
      rw [Fritz2.extractPagesFrom]
      cases hpc : Fritz2.extractPageContent a i with
      | error e' => exact ⟨e', rfl⟩
      | ok pc =>
        obtain ⟨msg, hmsg⟩ := ih (i + 1) w h e atts dr ys
        rw [hmsg]
        exact ⟨msg, rfl⟩
  · intro e cv p o
    rfl

/-- C4: a missing input file.  fritz_test2's convert_pdf_to_html raises
FileNotFoundError before opening anything and performs no file write;
fritz_test's and pdfplumber_test's convert functions report the error from the
failing open (the only side effect before it is the makedirs of the output
folder) and write no output file, pdfplumber_test additionally returning
None. -/
theorem spec_C4 :
    (∀ (openR : Except Str (List Fritz2.RawPage)) (wr : Except Str Unit)
        (cv : Fritz2.Converter) (p : Str) (o : Option Str),
      cv.convert_pdf_to_html ⟨false, openR, wr⟩ p o =
        (.error (.fileNotFound ((("PDF file not found: ").data) ++ p)), [])) ∧
    (∀ (e : Str) (p folder : Str),
      FritzT.convert (.error e) p folder =
        { returned := none, errorReported := true, fileWrites := [],
          dirsCreated := [folder] }) ∧
    (∀ (e : Str) (p folder : Str),
      Plumber.convert (.error e) p folder =
        { returned := none, errorReported := true, fileWrites := [],
          dirsCreated := [folder] }) := by
  refine ⟨?_, ?_, ?_⟩ <;> intros <;> rfl

/-- C8: under the embedding every library outcome is part of the input
environment, so conversion is a function of it: two runs on equal
environments, paths and options produce equal results and equal file write
traces, byte for byte. -/
theorem spec_C8 (env₁ env₂ : Fritz2.ConvEnv) (pdfPath : Str)
    (outputPath : Option Str) (cv : Fritz2.Converter) (h : env₁ = env₂) :
    cv.convert_pdf_to_html env₁ pdfPath outputPath =
      cv.convert_pdf_to_html env₂ pdfPath outputPath := by
  rw [h]

/-- Witness for C8 at a concrete environment. -/
theorem spec_C8_witness :
    (Fritz2.Converter.mk true true).convert_pdf_to_html
        ⟨false, .error [], .ok ()⟩ [] none =
      (Fritz2.Converter.mk true true).convert_pdf_to_html
        ⟨false, .error [], .ok ()⟩ [] none :=
  spec_C8 ⟨false, .error [], .ok ()⟩ ⟨false, .error [], .ok ()⟩ [] none
    (Fritz2.Converter.mk true true) rfl

/-- C9: the two constructor flags are dead after construction: any two
converters produce identical results on every input, and the module-level
convenience function gives identical results for every combination of flag
values. -/
theorem spec_C9 (c₁ c₂ : Fritz2.Converter) (env : Fritz2.ConvEnv)
    (pdfPath : Str) (outputPath : Option Str) :
    c₁.convert_pdf_to_html env pdfPath outputPath =
      c₂.convert_pdf_to_html env pdfPath outputPath ∧
    ∀ e₁ p₁ e₂ p₂ : Bool,
      Fritz2.convert_pdf_to_html pdfPath outputPath e₁ p₁ env =
        Fritz2.convert_pdf_to_html pdfPath outputPath e₂ p₂ env :=
  ⟨rfl, fun _ _ _ _ => rfl⟩

/-- C10: drawing records are stored in the page content (third conjunct shows
the stored field) but never rendered: the page HTML and the complete document
are unchanged under any replacement of the drawings lists. -/
theorem spec_C10 :
    (∀ (pc : Fritz2.PageContent) (d : List Fritz2.DrawingInfo),
      Fritz2.genPageHtml { pc with drawings := d } = Fritz2.genPageHtml pc) ∧
    (∀ (c : Fritz2.PdfContent)
        (f : Fritz2.PageContent → List Fritz2.DrawingInfo) (name : Str),
      Fritz2.genCompleteHtml
          { pages := c.pages.map (fun pc => { pc with drawings := f pc }) }
          name =
        Fritz2.genCompleteHtml c name) ∧
    (∀ (w h pn : Nat) (bs : List Fritz2.RawBlock)
        (atts : List (Except Str Fritz2.ImageData))
        (dr : Except Str (List Fritz2.RawDrawing)),
      Fritz2.extractPageContent ⟨w, h, .ok bs, atts, dr⟩ pn =
        .ok { pageNum := pn, width := w, height := h,
              textBlocks := Fritz2.extractTextBlocks bs,
              images := (Fritz2.extractImagesFrom pn 0 atts).1,
              drawings := Fritz2.extractDrawings dr }) := by
  refine ⟨fun pc d => rfl, fun c f name => ?_, fun w h pn bs atts dr => rfl⟩
  have hmap : ∀ ps : List Fritz2.PageContent,
      (ps.map (fun pc => { pc with drawings := f pc })).map Fritz2.genPageHtml =
        ps.map Fritz2.genPageHtml := by
    intro ps
    induction ps with
    | nil => rfl
    | cons a t ih =>
      simp only [List.map_cons, ih]
      rfl
  unfold Fritz2.genCompleteHtml Fritz2.genBodyHtml
  rw [hmap]

theorem occursIn_flatten_of_mem (x : Str) (parts : List Str) (h : x ∈ parts) :
    OccursIn x parts.flatten := by
  induction parts with
  | nil => simp at h
  | cons a t ih =>
    rcases List.mem_cons.1 h with rfl | hm
    · exact occursIn_append_left _ _ _ (occursIn_self x)
    · exact occursIn_append_right _ _ _ (ih hm)

/-- The escaped text of one span occurs in that span's element. -/
theorem escaped_occursIn_genSpanHtml (sp : Fritz2.SpanData) :
    OccursIn (htmlEscape sp.text) (Fritz2.genSpanHtml sp) := by
  unfold Fritz2.genSpanHtml
  exact occursIn_append_left _ _ _
    (occursIn_append_right _ _ _ (occursIn_self _))

/-- Counterexample to C6: pdfplumber_test.py does not escape the extracted
text, so for the one-page document whose extracted text is "a<b" the output
does not contain html.escape("a<b") anywhere. -/
theorem spec_C6_counterexample :
    ¬ OccursIn (htmlEscape (("a<b").data))
      (Plumber.docHtml [some (("a<b").data)]) := by
  decide

/-- C6 as amended: fritz_test2 escapes: for every span of every text block of
the content, html.escape of the span's text occurs verbatim in the complete
document; pdfplumber_test instead embeds the extracted page text verbatim
without escaping (the raw text occurs in its output whenever it is non-empty
and hence emitted). -/
theorem spec_C6 :
    (∀ (c : Fritz2.PdfContent) (name : Str) (pc : Fritz2.PageContent)
        (b : Fritz2.TextBlock) (l : List Fritz2.SpanData)
        (sp : Fritz2.SpanData),
      pc ∈ c.pages → b ∈ pc.textBlocks → b.btype = ("text").data →
      l ∈ b.lines → sp ∈ l →
      OccursIn (htmlEscape sp.text) (Fritz2.genCompleteHtml c name)) ∧
    (∀ (pages : List (Option Str)) (i : Nat) (t : Str),
      pages.get? i = some (some t) → t ≠ [] →
      OccursIn t (Plumber.docHtml pages)) := by
  constructor
  · intro c name pc b l sp hpc hb hbt hl hsp
    have h₁ : OccursIn (htmlEscape sp.text) ((l.map Fritz2.genSpanHtml).flatten) :=
      occursIn_trans _ _ _ (escaped_occursIn_genSpanHtml sp)
        (occursIn_flatten_of_mem _ _ (List.mem_map_of_mem _ hsp))
    have h₂ : OccursIn (htmlEscape sp.text) (Fritz2.genTextBlockHtml b) := by
      refine occursIn_trans _ _ _ h₁ ?_
      unfold Fritz2.genTextBlockHtml
      refine occursIn_intercalate _ _ _ ?_
      refine List.mem_cons.2 (Or.inr (List.mem_append.2 (Or.inl ?_)))
      refine List.mem_filterMap.2 ⟨l, hl, ?_⟩
      cases l with
      | nil => simp at hsp
      | cons a t => rfl
    have h₃ : OccursIn (htmlEscape sp.text) (Fritz2.genPageHtml pc) := by
      refine occursIn_trans _ _ _ (occursIn_append_right _ ((("            ").data))
        _ h₂) ?_
      unfold Fritz2.genPageHtml
      refine occursIn_intercalate _ _ _ ?_
      refine List.mem_cons.2 (Or.inr (List.mem_cons.2 (Or.inr ?_)))
      refine List.mem_append.2 (Or.inl (List.mem_append.2 (Or.inl ?_)))
      refine List.mem_filterMap.2 ⟨b, hb, ?_⟩
      rw [if_pos hbt]
    have h₄ : OccursIn (htmlEscape sp.text) (Fritz2.genBodyHtml c) := by
      refine occursIn_trans _ _ _ h₃ ?_
      unfold Fritz2.genBodyHtml
      exact occursIn_intercalate _ _ _ (List.mem_map_of_mem _ hpc)
    unfold Fritz2.genCompleteHtml
    exact occursIn_append_left _ _ _ (occursIn_append_right _ _ _ h₄)
  · intro pages i t hget hne
    have hoccpre : OccursIn t ((("<pre>").data) ++ t ++ (("</pre>").data)) :=
      ⟨(("<pre>").data), (("</pre>").data), by simp⟩
    have hmem : ∀ (i : Nat) (ps : List (Option Str)) (start : Nat),
        ps.get? i = some (some t) →
        ((("<pre>").data) ++ t ++ (("</pre>").data)) ∈
          Plumber.pageParts start ps := by
      intro i
      induction i with
      | zero =>
        intro ps start h
        cases ps with
        | nil => simp at h
        | cons a rest =>
          simp only [List.get?_cons_zero, Option.some.injEq] at h
          subst h
          show _ ∈ Plumber.pagePartsOne start (some t) ++ _
          refine List.mem_append.2 (Or.inl ?_)
          unfold Plumber.pagePartsOne
          have hemp : t.isEmpty = false := by
            cases t with
            | nil => exact absurd rfl hne
            | cons c cs => rfl
          simp [hemp]
      | succ j ih =>
        intro ps start h
        cases ps with
        | nil => simp at h
        | cons a rest =>
          simp only [List.get?_cons_succ] at h
          show _ ∈ Plumber.pagePartsOne start a ++ _
          exact List.mem_append.2 (Or.inr (ih rest (start + 1) h))
    refine occursIn_trans _ _ _ hoccpre ?_
    unfold Plumber.docHtml
    refine occursIn_intercalate _ _ _ ?_
    exact List.mem_append.2 (Or.inl (List.mem_cons.2 (Or.inr (hmem i pages 0 hget))))

theorem trailsWith_of_right (p x y : Str) (h : trailsWith p y = true) :
    trailsWith p (x ++ y) = true := by
  unfold trailsWith at h ⊢
  rw [List.reverse_append]
  exact leadsWith_of_left _ _ _ h

theorem intercalate_head (s h : Str) (rest : List Str) :
    ∃ X, List.intercalate s (h :: rest) = h ++ X := by
  cases rest with
  | nil => exact ⟨[], by simp [intercalate_single]⟩
  | cons b t =>
    refine ⟨s ++ List.intercalate s (b :: t), ?_⟩
    rw [intercalate_cons_cons]
    simp

theorem fritzT_divLine_mem (ps : List Str) :
    ∀ start i, i < ps.length →
      FritzT.pageDivLine (start + i + 1) ∈ FritzT.pageParts start ps := by
  induction ps with
  | nil =>
    intro start i h
    simp at h
  | cons a t ih =>
    intro start i h
    cases i with
    | zero => exact List.mem_cons_self _ _
    | succ j =>
      have harith : start + (j + 1) + 1 = (start + 1) + j + 1 := by omega
      rw [harith]
      refine List.mem_cons.2 (Or.inr (List.mem_cons.2 (Or.inr
        (List.mem_cons.2 (Or.inr ?_)))))
      exact ih (start + 1) j (by simpa using h)

theorem plumber_divLine_mem (ps : List (Option Str)) :
    ∀ start i, i < ps.length →
      FritzT.pageDivLine (start + i + 1) ∈ Plumber.pageParts start ps := by
  induction ps with
  | nil =>
    intro start i h
    simp at h
  | cons a t ih =>
    intro start i h
    cases i with
    | zero =>
      refine List.mem_append.2 (Or.inl ?_)
      exact List.mem_append.2 (Or.inl (List.mem_append.2 (Or.inl
        (List.mem_cons_self _ _))))
    | succ j =>
      have harith : start + (j + 1) + 1 = (start + 1) + j + 1 := by omega
      rw [harith]
      exact List.mem_append.2 (Or.inr (ih (start + 1) j (by simpa using h)))

/-- Counterexample to C7: new.py's output (here for the empty document, the
same shape for every input) neither begins with the DOCTYPE declaration nor
contains a head element: it is a bare html/body wrapper. -/
theorem spec_C7_counterexample :
    leadsWith (("<!DOCTYPE").data) (NewPy.docHtml []) = false ∧
    ¬ OccursIn (("<head").data) (NewPy.docHtml []) := by
  constructor
  · decide
  · decide

/-- C7 as amended: fritz_test.py, fritz_test2.py and pdfplumber_test.py all
produce documents that begin with a DOCTYPE/html/head prolog (fritz_test's
starting after a leading newline) and are closed with the body and html end
tags, and each page yields its page container div (for fritz_test2 also the
page-number badge, for pdfplumber also the h2 page header); new.py instead
wraps the concatenated page fragments in a bare html/body pair with no
DOCTYPE and no head element. -/
theorem spec_C7 :
    (∀ pages : List Str,
      leadsWith (("<html><body>").data) (NewPy.docHtml pages) = true ∧
      trailsWith (("</body></html>").data) (NewPy.docHtml pages) = true) ∧
    (∀ (c : Fritz2.PdfContent) (name : Str),
      leadsWith (("<!DOCTYPE html>\n<html lang=\"en\">\n<head>").data)
        (Fritz2.genCompleteHtml c name) = true ∧
      trailsWith (("</body>\n</html>").data)
        (Fritz2.genCompleteHtml c name) = true) ∧
    (∀ pages : List Str,
      leadsWith (("\n<!DOCTYPE html>\n<html>\n<head>").data)
        (FritzT.docHtml pages) = true ∧
      trailsWith (("</body></html>").data) (FritzT.docHtml pages) = true) ∧
    (∀ pages : List (Option Str),
      leadsWith (("<!DOCTYPE html>\n<html>\n<head>").data)
        (Plumber.docHtml pages) = true ∧
      trailsWith (("</body>\n</html>").data) (Plumber.docHtml pages) = true) ∧
    (∀ (c : Fritz2.PdfContent) (name : Str) (pc : Fritz2.PageContent),
      pc ∈ c.pages →
      OccursIn (Fritz2.pageDivLine (pc.pageNum + 1))
          (Fritz2.genCompleteHtml c name) ∧
      OccursIn (Fritz2.pageNumberLine (pc.pageNum + 1))
          (Fritz2.genCompleteHtml c name)) ∧
    (∀ (pages : List Str) (i : Nat), i < pages.length →
      OccursIn (FritzT.pageDivLine (i + 1)) (FritzT.docHtml pages)) ∧
    (∀ (pages : List (Option Str)) (i : Nat), i < pages.length →
      OccursIn (FritzT.pageDivLine (i + 1)) (Plumber.docHtml pages)) := by
  refine ⟨?_, ?_, ?_, ?_, ?_, ?_, ?_⟩
  · intro pages
    constructor
    · unfold NewPy.docHtml
      rw [List.append_assoc]
      exact leadsWith_of_left _ _ _ (leadsWith_refl _)
    · unfold NewPy.docHtml
      exact trailsWith_of_right _ _ _ (by decide)
  · intro c name
    constructor
    · unfold Fritz2.genCompleteHtml
      rw [List.append_assoc, List.append_assoc, List.append_assoc,
        List.append_assoc, List.append_assoc]
      exact leadsWith_of_left _ _ _ (by decide)
    · unfold Fritz2.genCompleteHtml
      exact trailsWith_of_right _ _ _ (by decide)
  · intro pages
    constructor
    · unfold FritzT.docHtml
      rw [List.cons_append]
      obtain ⟨X, hX⟩ := intercalate_head (['\n']) (FritzT.headerString.data)
        (FritzT.pageParts 0 pages ++ [(("</body></html>").data)])
      rw [hX]
      exact leadsWith_of_left _ _ _ (by decide)
    · unfold FritzT.docHtml
      obtain ⟨X, hX⟩ := exists_append_last (['\n'])
        (FritzT.headerString.data :: FritzT.pageParts 0 pages)
        ((("</body></html>").data))
      rw [hX]
      exact trailsWith_of_right _ _ _ (by decide)
  · intro pages
    constructor
    · unfold Plumber.docHtml
      rw [List.cons_append]
      obtain ⟨X, hX⟩ := intercalate_head (['\n']) (Plumber.headerString.data)
        (Plumber.pageParts 0 pages ++ [(("</body>\n</html>").data)])
      rw [hX]
      exact leadsWith_of_left _ _ _ (by decide)
    · unfold Plumber.docHtml
      obtain ⟨X, hX⟩ := exists_append_last (['\n'])
        (Plumber.headerString.data :: Plumber.pageParts 0 pages)
        ((("</body>\n</html>").data))
      rw [hX]
      exact trailsWith_of_right _ _ _ (by decide)
  · intro c name pc hpc
    have hbody : ∀ part, part ∈ [Fritz2.pageDivLine (pc.pageNum + 1),
        Fritz2.pageNumberLine (pc.pageNum + 1)] →
        OccursIn part (Fritz2.genCompleteHtml c name) := by
      intro part hpart
      have h₁ : OccursIn part (Fritz2.genPageHtml pc) := by
        unfold Fritz2.genPageHtml
        refine occursIn_intercalate _ _ _ ?_
        rcases List.mem_cons.1 hpart with rfl | hpart'
        · exact List.mem_cons_self _ _
        · rcases List.mem_cons.1 hpart' with rfl | hpart''
          · exact List.mem_cons.2 (Or.inr (List.mem_cons_self _ _))
          · simp at hpart''
      have h₂ : OccursIn part (Fritz2.genBodyHtml c) := by
        refine occursIn_trans _ _ _ h₁ ?_
        unfold Fritz2.genBodyHtml
        exact occursIn_intercalate _ _ _ (List.mem_map_of_mem _ hpc)
      unfold Fritz2.genCompleteHtml
      exact occursIn_append_left _ _ _ (occursIn_append_right _ _ _ h₂)
    exact ⟨hbody _ (List.mem_cons_self _ _),
      hbody _ (List.mem_cons.2 (Or.inr (List.mem_cons_self _ _)))⟩
  · intro pages i hi
    have hmem := fritzT_divLine_mem pages 0 i hi
    simp only [Nat.zero_add] at hmem
    refine occursIn_trans _ _ _ (occursIn_self _) ?_
    unfold FritzT.docHtml
    exact occursIn_intercalate _ _ _
      (List.mem_append.2 (Or.inl (List.mem_cons.2 (Or.inr hmem))))
  · intro pages i hi
    have hmem := plumber_divLine_mem pages 0 i hi
    simp only [Nat.zero_add] at hmem
    unfold Plumber.docHtml
    exact occursIn_intercalate _ _ _
      (List.mem_append.2 (Or.inl (List.mem_cons.2 (Or.inr hmem))))

/-- A concrete one-span content record used to instantiate theorems. -/
def witSpan : Fritz2.SpanData :=
  { text := ("hi").data
    font_info := { font := ("Arial").data, size := 12, color := 0,
                   bold := false, italic := false } }

/-- A concrete one-block text block. -/
def witBlock : Fritz2.TextBlock :=
  { btype := ("text").data, lines := [[witSpan]] }

/-- A concrete one-block page. -/
def witPage : Fritz2.PageContent :=
  { pageNum := 0, width := 612, height := 792, textBlocks := [witBlock],
    images := [], drawings := [] }

/-- A concrete one-page document content. -/
def witContent : Fritz2.PdfContent := { pages := [witPage] }

/-- Witness for C6 at the concrete one-span document and a concrete
one-page pdfplumber document. -/
theorem spec_C6_witness :
    OccursIn (htmlEscape (("hi").data))
        (Fritz2.genCompleteHtml witContent (("doc").data)) ∧
    OccursIn (("x").data) (Plumber.docHtml [some (("x").data)]) :=
  ⟨spec_C6.1 witContent (("doc").data) witPage witBlock [witSpan] witSpan
      (by simp [witContent]) (by simp [witPage]) rfl (by simp [witBlock])
      (by simp),
    spec_C6.2 [some (("x").data)] 0 (("x").data) rfl (by decide)⟩

/-- Witness for C7 at concrete one-page inputs for the three page-div
conjuncts (the other conjuncts have no hypotheses). -/
theorem spec_C7_witness :
    OccursIn (Fritz2.pageDivLine 1)
        (Fritz2.genCompleteHtml witContent (("doc").data)) ∧
    OccursIn (FritzT.pageDivLine 1) (FritzT.docHtml [("x").data]) ∧
    OccursIn (FritzT.pageDivLine 1) (Plumber.docHtml [some (("x").data)]) :=
  ⟨(spec_C7.2.2.2.2.1 witContent (("doc").data) witPage (by simp [witContent])).1,
    spec_C7.2.2.2.2.2.1 [("x").data] 0 (by decide),
    spec_C7.2.2.2.2.2.2 [some (("x").data)] 0 (by decide)⟩

/-! Counting page container divs (C5).  A page container occurrence is a
physical output line beginning with the container div's opening text; the
generators emit every container on a line of its own, so under the
no-stray-marker hypotheses below this counts exactly the emitted
containers. -/

/-- The opening text of the page container emitted by fritz_test.py and
pdfplumber_test.py. -/
def markerP : Str := ("<div class=\"page\" id=\"page-").data

/-- The opening text of the page container emitted by fritz_test2.py
(indented by 8 spaces in its template). -/
def markerF2 : Str := ("        <div class=\"pdf-page\" id=\"page-").data

/-- The lines of a document that begin with the given marker. -/
def markedBy (m : Str) (d : Str) : List Str :=
  (splitNl d).filter (leadsWith m)

theorem splitNl_line (x y : Str) (hx : '\n' ∉ x) :
    splitNl (x ++ '\n' :: y) = x :: splitNl y := by
  rw [splitNl_append_nl, splitNl_no_nl x hx]
  rfl

theorem filter_flatMap_eq (l : List α) (f : α → List β) (P : β → Bool) :
    ((l.flatMap f).filter P) = l.flatMap (fun a => (f a).filter P) := by
  induction l with
  | nil => rfl
  | cons a t ih => simp [List.flatMap_cons, List.filter_append, ih]

theorem markedBy_intercalate (m : Str) (parts : List Str) (h : parts ≠ []) :
    markedBy m (List.intercalate ['\n'] parts) =
      parts.flatMap (markedBy m) := by
  unfold markedBy
  rw [splitNl_intercalate parts h, filter_flatMap_eq]

theorem markedBy_no_nl_ff (m part : Str) (h1 : '\n' ∉ part)
    (h2 : leadsWith m part = false) : markedBy m part = [] := by
  unfold markedBy
  rw [splitNl_no_nl part h1]
  simp [h2]

theorem markedBy_no_nl_tt (m part : Str) (h1 : '\n' ∉ part)
    (h2 : leadsWith m part = true) : markedBy m part = [part] := by
  unfold markedBy
  rw [splitNl_no_nl part h1]
  simp [h2]

theorem notMem_append (c : Char) (a b : Str) (ha : c ∉ a) (hb : c ∉ b) :
    c ∉ a ++ b := by
  intro h
  rcases List.mem_append.1 h with h' | h'
  · exact ha h'
  · exact hb h'

theorem notMem_intercalate (c : Char) (sep : Str) (parts : List Str)
    (hsep : c ∉ sep) (hp : ∀ p ∈ parts, c ∉ p) :
    c ∉ List.intercalate sep parts := by
  induction parts with
  | nil => simp [List.intercalate]
  | cons a t ih =>
    cases t with
    | nil =>
      rw [intercalate_single]
      exact hp a (List.mem_cons_self _ _)
    | cons b t' =>
      rw [intercalate_cons_cons]
      refine notMem_append c _ _ (notMem_append c _ _ ?_ hsep) ?_
      · exact hp a (List.mem_cons_self _ _)
      · exact ih (fun p hm => hp p (List.mem_cons.2 (Or.inr hm)))

theorem notMem_flatten (c : Char) (parts : List Str)
    (hp : ∀ p ∈ parts, c ∉ p) : c ∉ parts.flatten := by
  induction parts with
  | nil => simp
  | cons a t ih =>
    rw [List.flatten_cons]
    refine notMem_append c _ _ (hp a (List.mem_cons_self _ _)) ?_
    exact ih (fun p hm => hp p (List.mem_cons.2 (Or.inr hm)))

/-- The class attribute of a span never contains a newline. -/
theorem nl_not_mem_classAttr (fi : Fritz2.FontInfo) :
    '\n' ∉ Fritz2.classAttr (Fritz2.spanClasses fi) := by
  unfold Fritz2.classAttr
  split
  · simp
  · refine notMem_append '\n' _ _ (notMem_append '\n' _ _ (by decide) ?_) (by decide)
    refine notMem_intercalate '\n' _ _ (by decide) ?_
    intro p hp
    unfold Fritz2.spanClasses at hp
    rcases List.mem_cons.1 hp with rfl | hp'
    · decide
    · rcases List.mem_append.1 hp' with hp'' | hp'' <;>
        · split at hp'' <;> simp at hp''
          subst hp''
          decide

/-- The style attribute of a span never contains a newline. -/
theorem nl_not_mem_styleAttr (fi : Fritz2.FontInfo) :
    '\n' ∉ Fritz2.styleAttr fi := by
  unfold Fritz2.styleAttr
  split
  · simp
  · refine notMem_append '\n' _ _ (notMem_append '\n' _ _ (by decide) ?_) (by decide)
    refine notMem_intercalate '\n' _ _ (by decide) ?_
    intro p hp
    unfold Fritz2.spanStyles at hp
    rcases List.mem_append.1 hp with hp' | hp'
    · split at hp' <;> simp at hp'
      subst hp'
      unfold Fritz2.fontSizeStyle
      refine notMem_append '\n' _ _ (notMem_append '\n' _ _ (by decide) ?_) (by decide)
      exact nl_not_mem_natStr _
    · split at hp' <;> simp at hp'
      subst hp'
      unfold Fritz2.colorStyle
      refine notMem_append '\n' _ _ (by decide) ?_
      exact nl_not_mem_hex06 _

/-- A span element for a newline-free text is newline-free. -/
theorem nl_not_mem_genSpanHtml (sp : Fritz2.SpanData) (h : '\n' ∉ sp.text) :
    '\n' ∉ Fritz2.genSpanHtml sp := by
  unfold Fritz2.genSpanHtml
  refine notMem_append '\n' _ _ (notMem_append '\n' _ _ (notMem_append '\n' _ _
    (notMem_append '\n' _ _ (notMem_append '\n' _ _ (by decide)
      (nl_not_mem_classAttr _)) (nl_not_mem_styleAttr _)) (by decide))
    (nl_not_mem_htmlEscape _ h)) (by decide)

theorem markedBy_line_ff (m x y : Str) (hx : '\n' ∉ x)
    (h2 : leadsWith m x = false) :
    markedBy m (x ++ '\n' :: y) = markedBy m y := by
  unfold markedBy
  rw [splitNl_line x y hx]
  simp [h2]

theorem markedBy_merge_ff (m pad x y : Str) (hpad : '\n' ∉ pad)
    (hx : '\n' ∉ x) (h2 : leadsWith m (pad ++ x) = false) :
    markedBy m (pad ++ (x ++ '\n' :: y)) = markedBy m y := by
  unfold markedBy
  rw [splitNl_merge_left pad _ (by exact hpad) x (splitNl y) (splitNl_line x y hx)]
  simp [h2]

theorem flatMap_nil_of (l : List α) (f : α → List β)
    (h : ∀ a ∈ l, f a = []) : l.flatMap f = [] := by
  induction l with
  | nil => rfl
  | cons a t ih =>
    rw [List.flatMap_cons, h a (List.mem_cons_self _ _),
      ih (fun x hx => h x (List.mem_cons.2 (Or.inr hx)))]
    rfl

theorem nl_not_mem_pageDivLine (k : Nat) : '\n' ∉ Fritz2.pageDivLine k := by
  unfold Fritz2.pageDivLine
  exact notMem_append '\n' _ _ (notMem_append '\n' _ _ (by decide)
    (nl_not_mem_natStr k)) (by decide)

theorem markedF2_pageDivLine (k : Nat) :
    markedBy markerF2 (Fritz2.pageDivLine k) = [Fritz2.pageDivLine k] := by
  refine markedBy_no_nl_tt _ _ (nl_not_mem_pageDivLine k) ?_
  unfold markerF2 Fritz2.pageDivLine
  rw [List.append_assoc]
  exact leadsWith_append_self _ _

theorem markedF2_pageNumberLine (k : Nat) :
    markedBy markerF2 (Fritz2.pageNumberLine k) = [] := by
  refine markedBy_no_nl_ff _ _ ?_ ?_
  · unfold Fritz2.pageNumberLine
    exact notMem_append '\n' _ _ (notMem_append '\n' _ _ (by decide)
      (nl_not_mem_natStr k)) (by decide)
  · unfold Fritz2.pageNumberLine
    rw [List.append_assoc]
    exact leadsWith_append_ff _ _ _ (by decide)

/-- A non-empty line of span elements with newline-free texts gives no page
container line: it is one physical line and starts with the span tag. -/
theorem markedF2_spanLine (l : List Fritz2.SpanData) (sp : Fritz2.SpanData)
    (t : List Fritz2.SpanData) (hl : l = sp :: t)
    (hcl : ∀ s ∈ l, '\n' ∉ s.text) :
    markedBy markerF2 ((l.map Fritz2.genSpanHtml).flatten) = [] := by
  subst hl
  refine markedBy_no_nl_ff _ _ ?_ ?_
  · refine notMem_flatten '\n' _ ?_
    intro p hp
    obtain ⟨s, hs, rfl⟩ := List.mem_map.1 hp
    exact nl_not_mem_genSpanHtml s (hcl s hs)
  · rw [List.map_cons, List.flatten_cons]
    unfold Fritz2.genSpanHtml
    rw [List.append_assoc, List.append_assoc, List.append_assoc,
      List.append_assoc, List.append_assoc]
    exact leadsWith_append_ff _ _ _ (by decide)

/-- A text block part of the page HTML yields no page container line. -/
theorem markedF2_blockPart (b : Fritz2.TextBlock)
    (hb : ∀ l ∈ b.lines, ∀ sp ∈ l, '\n' ∉ sp.text) :
    markedBy markerF2 ((("            ").data) ++ Fritz2.genTextBlockHtml b) = [] := by
  unfold Fritz2.genTextBlockHtml
  set mids := b.lines.filterMap (fun l =>
    match l with
    | [] => none
    | _ :: _ => some ((l.map Fritz2.genSpanHtml).flatten)) with hmids
  have hsplit : splitNl (List.intercalate ['\n']
      ((("<div class=\"text-block\">").data) :: (mids ++ [(("</div>").data)]))) =
      (("<div class=\"text-block\">").data) ::
        ((mids ++ [(("</div>").data)]).flatMap splitNl) := by
    rw [splitNl_intercalate _ (by simp)]
    rw [List.flatMap_cons, splitNl_no_nl _ (by decide)]
    rfl
  unfold markedBy
  rw [splitNl_merge_left _ _ (by decide) _ _ hsplit]
  rw [List.filter_cons, if_neg (by decide)]
  rw [filter_flatMap_eq]
  refine flatMap_nil_of _ _ ?_
  intro part hpart
  rcases List.mem_append.1 hpart with hmid | hlast
  · rw [hmids] at hmid
    obtain ⟨l, hl, hsome⟩ := List.mem_filterMap.1 hmid
    cases l with
    | nil => simp at hsome
    | cons sp t =>
      simp only [Option.some.injEq] at hsome
      subst hsome
      exact markedF2_spanLine (sp :: t) sp t rfl (hb _ hl)
  · rw [List.mem_singleton.1 hlast]
    decide

/-- An image part of the page HTML yields no page container line: every
physical line of the img element starts with indentation and a tag, and the
format and base64 payload sit inside single lines when newline-free. -/
theorem markedF2_imagePart (im : Fritz2.ImageInfo) (hf : '\n' ∉ im.format)
    (hd : '\n' ∉ im.data) :
    markedBy markerF2 ((("            ").data) ++ Fritz2.genImageHtml im) = [] := by
  have hform : (("            ").data) ++ Fritz2.genImageHtml im =
      (("            ").data) ++ ((("<div class=\"image-container\">").data) ++ '\n' ::
      (((("                <img src=\"data:image/").data) ++
          (im.format ++ (((";base64,").data) ++ (im.data ++ (("\" ").data))))) ++ '\n' ::
      (((("                     alt=\"PDF Image ").data) ++
          (natStr im.index ++ (("\" ").data))) ++ '\n' ::
      ((("                     class=\"pdf-image\"").data) ++ '\n' ::
      (((("                     width=\"").data) ++
          (natStr im.width ++ (("\" ").data))) ++ '\n' ::
      (((("                     height=\"").data) ++
          (natStr im.height ++ (("\">").data))) ++ '\n' ::
      (("            </div>").data))))))) := by
    unfold Fritz2.genImageHtml
    rw [(by decide :
      ("<div class=\"image-container\">\n                <img src=\"data:image/").data =
      (("<div class=\"image-container\">").data) ++ '\n' ::
        ("                <img src=\"data:image/").data)]
    rw [(by decide :
      ("\" \n                     alt=\"PDF Image ").data =
      (("\" ").data) ++ '\n' :: ("                     alt=\"PDF Image ").data)]
    rw [(by decide :
      ("\" \n                     class=\"pdf-image\"\n                     width=\"").data =
      (("\" ").data) ++ '\n' :: ((("                     class=\"pdf-image\"").data) ++
        '\n' :: ("                     width=\"").data))]
    rw [(by decide :
      ("\" \n                     height=\"").data =
      (("\" ").data) ++ '\n' :: ("                     height=\"").data)]
    rw [(by decide :
      ("\">\n            </div>").data =
      (("\">").data) ++ '\n' :: ("            </div>").data)]
    simp [List.append_assoc, List.cons_append]
  rw [hform]
  rw [markedBy_merge_ff _ _ _ _ (by decide) (by decide) (by decide)]
  rw [markedBy_line_ff _ _ _
    (notMem_append '\n' _ _ (by decide) (notMem_append '\n' _ _ hf
      (notMem_append '\n' _ _ (by decide) (notMem_append '\n' _ _ hd (by decide)))))
    (leadsWith_append_ff _ _ _ (by decide))]
  rw [markedBy_line_ff _ _ _
    (notMem_append '\n' _ _ (by decide) (notMem_append '\n' _ _
      (nl_not_mem_natStr _) (by decide)))
    (leadsWith_append_ff _ _ _ (by decide))]
  rw [markedBy_line_ff _ _ _ (by decide) (by decide)]
  rw [markedBy_line_ff _ _ _
    (notMem_append '\n' _ _ (by decide) (notMem_append '\n' _ _
      (nl_not_mem_natStr _) (by decide)))
    (leadsWith_append_ff _ _ _ (by decide))]
  rw [markedBy_line_ff _ _ _
    (notMem_append '\n' _ _ (by decide) (notMem_append '\n' _ _
      (nl_not_mem_natStr _) (by decide)))
    (leadsWith_append_ff _ _ _ (by decide))]
  decide

/-- The library-supplied strings of a page content are newline-free: true of
what PyMuPDF supplies (span texts are single lines, formats are png/jpeg,
base64 has no newlines), and required for the line-based container count. -/
def cleanPage (pc : Fritz2.PageContent) : Prop :=
  (∀ b ∈ pc.textBlocks, ∀ l ∈ b.lines, ∀ sp ∈ l, '\n' ∉ sp.text) ∧
  (∀ im ∈ pc.images, '\n' ∉ im.format ∧ '\n' ∉ im.data)

theorem markedBy_chunk (m x y : Str) :
    markedBy m (x ++ '\n' :: y) = markedBy m x ++ markedBy m y := by
  unfold markedBy
  rw [splitNl_append_nl, List.filter_append]

/-- One clean page contributes exactly its container line. -/
theorem markedF2_genPage (pc : Fritz2.PageContent) (hc : cleanPage pc) :
    markedBy markerF2 (Fritz2.genPageHtml pc) =
      [Fritz2.pageDivLine (pc.pageNum + 1)] := by
  unfold Fritz2.genPageHtml
  rw [markedBy_intercalate _ _ (by simp)]
  rw [List.flatMap_append, List.flatMap_append, List.flatMap_append]
  rw [show ([Fritz2.pageDivLine (pc.pageNum + 1),
      Fritz2.pageNumberLine (pc.pageNum + 1)].flatMap (markedBy markerF2)) =
      markedBy markerF2 (Fritz2.pageDivLine (pc.pageNum + 1)) ++
        (markedBy markerF2 (Fritz2.pageNumberLine (pc.pageNum + 1)) ++ []) from rfl]
  rw [markedF2_pageDivLine, markedF2_pageNumberLine]
  rw [flatMap_nil_of (pc.textBlocks.filterMap _) _ (by
    intro part hpart
    obtain ⟨b, hb, hsome⟩ := List.mem_filterMap.1 hpart
    split at hsome
    · simp only [Option.some.injEq] at hsome
      subst hsome
      exact markedF2_blockPart b (hc.1 b hb)
    · simp at hsome)]
  rw [flatMap_nil_of (pc.images.map _) _ (by
    intro part hpart
    obtain ⟨im, him, rfl⟩ := List.mem_map.1 hpart
    exact markedF2_imagePart im (hc.2 im him).1 (hc.2 im him).2)]
  rw [show ([(("        </div>").data)].flatMap (markedBy markerF2)) =
    markedBy markerF2 (("        </div>").data) ++ [] from rfl]
  rw [(by decide : markedBy markerF2 (("        </div>").data) = [])]
  simp

/-- The body contributes exactly one container line per page, in order. -/
theorem markedF2_body (pcs : List Fritz2.PageContent)
    (hclean : ∀ pc ∈ pcs, cleanPage pc) :
    markedBy markerF2 (Fritz2.genBodyHtml { pages := pcs }) =
      pcs.map (fun pc => Fritz2.pageDivLine (pc.pageNum + 1)) := by
  induction pcs with
  | nil => decide
  | cons a t ih =>
    cases t with
    | nil =>
      show markedBy markerF2 (List.intercalate (['\n'])
        [Fritz2.genPageHtml a]) = _
      rw [intercalate_single]
      rw [markedF2_genPage a (hclean a (List.mem_cons_self _ _))]
      rfl
    | cons b t' =>
      show markedBy markerF2 (List.intercalate (['\n'])
        (Fritz2.genPageHtml a :: Fritz2.genPageHtml b ::
          t'.map Fritz2.genPageHtml)) = _
      rw [intercalate_cons_cons]
      rw [List.append_assoc]
      rw [show (['\n'] : Str) ++ List.intercalate (['\n'])
        (Fritz2.genPageHtml b :: t'.map Fritz2.genPageHtml) =
        '\n' :: List.intercalate (['\n'])
          (Fritz2.genPageHtml b :: t'.map Fritz2.genPageHtml) from rfl]
      rw [markedBy_chunk]
      rw [markedF2_genPage a (hclean a (List.mem_cons_self _ _))]
      have ih' := ih (fun pc hm => hclean pc (List.mem_cons.2 (Or.inr hm)))
      unfold Fritz2.genBodyHtml at ih'
      simp only [List.map_cons] at ih'
      rw [ih']
      rfl

/-- The head chunk of the fritz_test2 template before the title line. -/
def tplAhead : Str :=
  ("<!DOCTYPE html>\n<html lang=\"en\">\n<head>\n    <meta charset=\"UTF-8\">\n    <meta name=\"viewport\" content=\"width=device-width, initial-scale=1.0\">").data

/-- The style chunk of the fritz_test2 template between the title line and
the h1 line. -/
def tplBmid : Str :=
  ("    <style>\n").data ++ Fritz2.cssString.data ++
    ("\n    </style>\n</head>\n<body>\n    <div class=\"pdf-container\">").data

/-- The closing chunk of the fritz_test2 template after the body. -/
def tplDtail : Str := ("    </div>\n</body>\n</html>").data

/-- The complete fritz_test2 document contributes exactly one container line
per page: the template never emits one and each page emits exactly one. -/
theorem markedF2_doc (pcs : List Fritz2.PageContent) (name : Str)
    (hclean : ∀ pc ∈ pcs, cleanPage pc) (hname : '\n' ∉ name) :
    markedBy markerF2 (Fritz2.genCompleteHtml { pages := pcs } name) =
      pcs.map (fun pc => Fritz2.pageDivLine (pc.pageNum + 1)) := by
  have hform : Fritz2.genCompleteHtml { pages := pcs } name =
      tplAhead ++ '\n' ::
      (((("    <title>").data) ++ (htmlEscape name ++ (("</title>").data))) ++ '\n' ::
      (tplBmid ++ '\n' ::
      (((("        <h1 class=\"pdf-title\">").data) ++
          (htmlEscape name ++ (("</h1>").data))) ++ '\n' ::
      (Fritz2.genBodyHtml { pages := pcs } ++ '\n' :: tplDtail)))) := by
    unfold Fritz2.genCompleteHtml Fritz2.tplA Fritz2.tplB Fritz2.tplC
      Fritz2.tplD tplAhead tplBmid tplDtail
    rw [(by decide :
      ("<!DOCTYPE html>\n<html lang=\"en\">\n<head>\n    <meta charset=\"UTF-8\">\n    <meta name=\"viewport\" content=\"width=device-width, initial-scale=1.0\">\n    <title>").data =
      ("<!DOCTYPE html>\n<html lang=\"en\">\n<head>\n    <meta charset=\"UTF-8\">\n    <meta name=\"viewport\" content=\"width=device-width, initial-scale=1.0\">").data
        ++ '\n' :: ("    <title>").data)]
    rw [(by decide :
      ("</title>\n    <style>\n").data =
      ("</title>").data ++ '\n' :: ("    <style>\n").data)]
    rw [(by decide :
      ("\n    </style>\n</head>\n<body>\n    <div class=\"pdf-container\">\n        <h1 class=\"pdf-title\">").data =
      ("\n    </style>\n</head>\n<body>\n    <div class=\"pdf-container\">").data
        ++ '\n' :: ("        <h1 class=\"pdf-title\">").data)]
    rw [(by decide : ("</h1>\n").data = ("</h1>").data ++ '\n' :: ([] : Str))]
    rw [(by decide :
      ("\n    </div>\n</body>\n</html>").data =
      '\n' :: ("    </div>\n</body>\n</html>").data)]
    simp [List.append_assoc, List.cons_append]
  rw [hform]
  rw [markedBy_chunk]
  rw [(by decide : markedBy markerF2 tplAhead = [])]
  rw [markedBy_chunk]
  rw [markedBy_no_nl_ff _ _
    (notMem_append '\n' _ _ (by decide) (notMem_append '\n' _ _
      (nl_not_mem_htmlEscape name hname) (by decide)))
    (leadsWith_append_ff _ _ _ (by decide))]
  rw [markedBy_chunk]
  rw [(by decide : markedBy markerF2 tplBmid = [])]
  rw [markedBy_chunk]
  rw [markedBy_no_nl_ff _ _
    (notMem_append '\n' _ _ (by decide) (notMem_append '\n' _ _
      (nl_not_mem_htmlEscape name hname) (by decide)))
    (leadsWith_append_ff _ _ _ (by decide))]
  rw [markedBy_chunk]
  rw [(by decide : markedBy markerF2 tplDtail = [])]
  rw [markedF2_body pcs hclean]
  simp

theorem filter_nil_of (xs : List α) (P : α → Bool)
    (h : ∀ x ∈ xs, P x = false) : xs.filter P = [] := by
  induction xs with
  | nil => rfl
  | cons a t ih =>
    rw [List.filter_cons, if_neg (by simp [h a (List.mem_cons_self _ _)])]
    exact ih (fun x hx => h x (List.mem_cons.2 (Or.inr hx)))

/-- A prefix of an appended string either sits inside the left part or
extends it into the right part. -/
theorem leadsWith_append_split (p e s : Str) (h : leadsWith p (e ++ s) = true) :
    leadsWith p e = true ∨ ∃ q, p = e ++ q ∧ leadsWith q s = true := by
  induction e generalizing p with
  | nil => exact Or.inr ⟨p, by simp, h⟩
  | cons c e' ih =>
    cases p with
    | nil => exact Or.inl (by simp)
    | cons b p' =>
      simp only [List.cons_append, leadsWith, Bool.and_eq_true, beq_iff_eq] at h
      obtain ⟨rfl, h'⟩ := h
      rcases ih p' h' with h'' | ⟨q, rfl, hq⟩
      · exact Or.inl (by simp [leadsWith, h''])
      · exact Or.inr ⟨q, by simp, hq⟩

/-- Appending the closing pre tag to a line that does not begin with the
page marker cannot create one: the marker has its only angle bracket at the
start. -/
theorem leadsWith_markerP_append_close (l : Str)
    (hl : leadsWith markerP l = false) :
    leadsWith markerP (l ++ ("</pre>").data) = false := by
  cases hcase : leadsWith markerP (l ++ ("</pre>").data) with
  | false => rfl
  | true =>
    exfalso
    rcases leadsWith_append_split markerP l _ hcase with h | ⟨q, hpq, hq⟩
    · rw [h] at hl
      exact absurd hl (by simp)
    · cases q with
      | nil =>
        simp only [List.append_nil] at hpq
        rw [← hpq, leadsWith_refl] at hl
        exact absurd hl (by simp)
      | cons c q' =>
        have hc : c = '<' := by
          have : ("</pre>").data = '<' :: ("/pre>").data := by decide
          rw [this] at hq
          simp only [leadsWith, Bool.and_eq_true, beq_iff_eq] at hq
          exact hq.1
        subst hc
        cases l with
        | nil =>
          simp only [List.nil_append] at hpq
          rw [← hpq] at hq
          exact absurd hq (by decide)
        | cons a l' =>
          have hm : markerP = '<' :: (("div class=\"page\" id=\"page-").data) := by
            decide
          rw [hm] at hpq
          simp only [List.cons_append, List.cons.injEq] at hpq
          have h22 : (("div class=\"page\" id=\"page-").data) = l' ++ '<' :: q' :=
            hpq.2
          have : '<' ∈ (("div class=\"page\" id=\"page-").data) := by
            rw [h22]
            exact List.mem_append.2 (Or.inr (List.mem_cons_self _ _))
          exact absurd this (by decide)

theorem nl_not_mem_fritzT_divLine (k : Nat) : '\n' ∉ FritzT.pageDivLine k := by
  unfold FritzT.pageDivLine
  exact notMem_append '\n' _ _ (notMem_append '\n' _ _ (by decide)
    (nl_not_mem_natStr k)) (by decide)

theorem markedP_pageDivLine (k : Nat) :
    markedBy markerP (FritzT.pageDivLine k) = [FritzT.pageDivLine k] := by
  refine markedBy_no_nl_tt _ _ (nl_not_mem_fritzT_divLine k) ?_
  unfold markerP FritzT.pageDivLine
  rw [List.append_assoc]
  exact leadsWith_append_self _ _

/-- The pre element of pdfplumber yields no container line when no line of
the raw text begins with the marker. -/
theorem markedP_preLine (txt : Str)
    (h : ∀ l ∈ splitNl txt, leadsWith markerP l = false) :
    markedBy markerP ((("<pre>").data) ++ txt ++ (("</pre>").data)) = [] := by
  obtain ⟨ls, l, h₁, h₂⟩ := splitNl_merge_right txt (("</pre>").data) (by decide)
  unfold markedBy
  rw [List.append_assoc]
  cases ls with
  | nil =>
    simp only [List.nil_append] at h₁ h₂
    rw [splitNl_merge_left _ _ (by decide) _ _ h₂]
    rw [List.filter_cons, if_neg (by
      rw [leadsWith_append_ff markerP (("<pre>").data)
        (l ++ (("</pre>").data)) (by decide)]
      simp)]
    rfl
  | cons a ls' =>
    have h₂' : splitNl (txt ++ (("</pre>").data)) =
        a :: (ls' ++ [l ++ (("</pre>").data)]) := by
      rw [h₂]
      simp
    rw [splitNl_merge_left _ _ (by decide) _ _ h₂']
    rw [List.filter_cons, if_neg (by
      rw [leadsWith_append_ff markerP (("<pre>").data) a (by decide)]
      simp)]
    rw [List.filter_append]
    rw [filter_nil_of ls' _ (fun x hx => by
      refine h x ?_
      rw [h₁]
      exact List.mem_cons.2 (Or.inr (List.mem_append.2 (Or.inl hx))))]
    have hlast : leadsWith markerP (l ++ (("</pre>").data)) = false :=
      leadsWith_markerP_append_close l (h l (by
        rw [h₁]
        exact List.mem_cons.2 (Or.inr (List.mem_append.2
          (Or.inr (List.mem_singleton.2 rfl))))))
    rw [List.filter_cons, if_neg (by rw [hlast]; simp)]
    rfl

/-- The per-page parts of fritz_test contribute exactly the container lines,
in order, when no line of the library page HTML begins with the marker. -/
theorem markedP_fritzT_parts (pages : List Str) :
    ∀ start, (∀ ph ∈ pages, ∀ l ∈ splitNl ph, leadsWith markerP l = false) →
    (FritzT.pageParts start pages).flatMap (markedBy markerP) =
      (List.range pages.length).map
        (fun i => FritzT.pageDivLine (start + i + 1)) := by
  induction pages with
  | nil =>
    intro start _
    rfl
  | cons ph rest ih =>
    intro start h
    show (FritzT.pageDivLine (start + 1) :: ph :: (("</div>").data) ::
      FritzT.pageParts (start + 1) rest).flatMap (markedBy markerP) = _
    rw [List.flatMap_cons, List.flatMap_cons, List.flatMap_cons]
    rw [markedP_pageDivLine]
    rw [show markedBy markerP ph = (splitNl ph).filter (leadsWith markerP)
      from rfl]
    rw [filter_nil_of _ _ (h ph (List.mem_cons_self _ _))]
    rw [(by decide : markedBy markerP (("</div>").data) = [])]
    rw [ih (start + 1) (fun p hp => h p (List.mem_cons.2 (Or.inr hp)))]
    have hfun : (fun i => FritzT.pageDivLine ((start + 1) + i + 1)) =
        ((fun i => FritzT.pageDivLine (start + i + 1)) ∘ Nat.succ) := by
      funext i
      show FritzT.pageDivLine ((start + 1) + i + 1) =
        FritzT.pageDivLine (start + (i + 1) + 1)
      congr 1
      omega
    rw [hfun]
    rw [List.length_cons, List.range_succ_eq_map, List.map_cons, List.map_map]
    simp

/-- The parts of one pdfplumber page contribute exactly its container line. -/
theorem markedP_pagePartsOne (i : Nat) (t : Option Str)
    (h : ∀ txt, t = some txt → ∀ l ∈ splitNl txt, leadsWith markerP l = false) :
    (Plumber.pagePartsOne i t).flatMap (markedBy markerP) =
      [FritzT.pageDivLine (i + 1)] := by
  unfold Plumber.pagePartsOne
  rw [List.flatMap_append, List.flatMap_append]
  rw [show ([FritzT.pageDivLine (i + 1),
      (("<h2>Page ").data) ++ natStr (i + 1) ++ (("</h2>").data)].flatMap
        (markedBy markerP)) =
    markedBy markerP (FritzT.pageDivLine (i + 1)) ++
      (markedBy markerP ((("<h2>Page ").data) ++ natStr (i + 1) ++
        (("</h2>").data)) ++ []) from rfl]
  rw [markedP_pageDivLine]
  rw [markedBy_no_nl_ff _ _
    (notMem_append '\n' _ _ (notMem_append '\n' _ _ (by decide)
      (nl_not_mem_natStr _)) (by decide))
    (by
      rw [List.append_assoc]
      exact leadsWith_append_ff _ _ _ (by decide))]
  rw [show ([("</div>").data].flatMap (markedBy markerP)) =
    markedBy markerP (("</div>").data) ++ [] from rfl]
  rw [(by decide : markedBy markerP (("</div>").data) = [])]
  cases t with
  | none => rfl
  | some txt =>
    by_cases hemp : txt.isEmpty
    · show [FritzT.pageDivLine (i + 1)] ++ (([] ++ []) ++
        ((if txt.isEmpty = true then [] else _).flatMap (markedBy markerP) ++
          ([] ++ []))) = _
      rw [if_pos hemp]
      simp
    · show [FritzT.pageDivLine (i + 1)] ++ (([] ++ []) ++
        ((if txt.isEmpty = true then [] else _).flatMap (markedBy markerP) ++
          ([] ++ []))) = _
      rw [if_neg hemp]
      rw [show (([(("<div class=\"text-block\">").data),
          (("<pre>").data) ++ txt ++ (("</pre>").data),
          (("</div>").data)]).flatMap (markedBy markerP)) =
        markedBy markerP (("<div class=\"text-block\">").data) ++
          (markedBy markerP ((("<pre>").data) ++ txt ++ (("</pre>").data)) ++
            (markedBy markerP (("</div>").data) ++ [])) from rfl]
      rw [(by decide : markedBy markerP (("<div class=\"text-block\">").data) = [])]
      rw [markedP_preLine txt (h txt rfl)]
      rw [(by decide : markedBy markerP (("</div>").data) = [])]
      simp

/-- The per-page parts of pdfplumber contribute exactly the container lines. -/
theorem markedP_plumber_parts (pages : List (Option Str)) :
    ∀ start, (∀ t, some t ∈ pages → ∀ l ∈ splitNl t, leadsWith markerP l = false) →
    (Plumber.pageParts start pages).flatMap (markedBy markerP) =
      (List.range pages.length).map
        (fun i => FritzT.pageDivLine (start + i + 1)) := by
  induction pages with
  | nil =>
    intro start _
    rfl
  | cons t rest ih =>
    intro start h
    show (Plumber.pagePartsOne start t ++
      Plumber.pageParts (start + 1) rest).flatMap (markedBy markerP) = _
    rw [List.flatMap_append]
    rw [markedP_pagePartsOne start t (fun txt htxt => by
      subst htxt
      exact h txt (List.mem_cons_self _ _))]
    rw [ih (start + 1) (fun p hp => h p (List.mem_cons.2 (Or.inr hp)))]
    have hfun : (fun i => FritzT.pageDivLine ((start + 1) + i + 1)) =
        ((fun i => FritzT.pageDivLine (start + i + 1)) ∘ Nat.succ) := by
      funext i
      show FritzT.pageDivLine ((start + 1) + i + 1) =
        FritzT.pageDivLine (start + (i + 1) + 1)
      congr 1
      omega
    rw [hfun]
    rw [List.length_cons, List.range_succ_eq_map, List.map_cons, List.map_map]
    simp

/-- The complete fritz_test document contains exactly one container line per
page. -/
theorem markedP_fritzT_doc (pages : List Str)
    (h : ∀ ph ∈ pages, ∀ l ∈ splitNl ph, leadsWith markerP l = false) :
    markedBy markerP (FritzT.docHtml pages) =
      (List.range pages.length).map (fun i => FritzT.pageDivLine (i + 1)) := by
  unfold FritzT.docHtml
  rw [markedBy_intercalate _ _ (by simp)]
  rw [List.flatMap_append, List.flatMap_cons]
  rw [(by decide : markedBy markerP (FritzT.headerString.data) = [])]
  rw [markedP_fritzT_parts pages 0 h]
  rw [show ([("</body></html>").data].flatMap (markedBy markerP)) =
    markedBy markerP (("</body></html>").data) ++ [] from rfl]
  rw [(by decide : markedBy markerP (("</body></html>").data) = [])]
  have hfun : (fun i => FritzT.pageDivLine (0 + i + 1)) =
      (fun i => FritzT.pageDivLine (i + 1)) := by
    funext i
    congr 1
    omega
  rw [hfun]
  simp

/-- The complete pdfplumber document contains exactly one container line per
page. -/
theorem markedP_plumber_doc (pages : List (Option Str))
    (h : ∀ t, some t ∈ pages → ∀ l ∈ splitNl t, leadsWith markerP l = false) :
    markedBy markerP (Plumber.docHtml pages) =
      (List.range pages.length).map (fun i => FritzT.pageDivLine (i + 1)) := by
  unfold Plumber.docHtml
  rw [markedBy_intercalate _ _ (by simp)]
  rw [List.flatMap_append, List.flatMap_cons]
  rw [(by decide : markedBy markerP (Plumber.headerString.data) = [])]
  rw [markedP_plumber_parts pages 0 h]
  rw [show ([("</body>\n</html>").data].flatMap (markedBy markerP)) =
    markedBy markerP (("</body>\n</html>").data) ++ [] from rfl]
  rw [(by decide : markedBy markerP (("</body>\n</html>").data) = [])]
  have hfun : (fun i => FritzT.pageDivLine (0 + i + 1)) =
      (fun i => FritzT.pageDivLine (i + 1)) := by
    funext i
    congr 1
    omega
  rw [hfun]
  simp

/-- Extraction numbers the pages by their position. -/
theorem extractPagesFrom_pageNums (raws : List Fritz2.RawPage) :
    ∀ (i : Nat) (pcs : List Fritz2.PageContent),
      Fritz2.extractPagesFrom i raws = .ok pcs →
      pcs.map (fun pc => pc.pageNum) = List.range' i raws.length := by
  induction raws with
  | nil =>
    intro i pcs h
    rw [Fritz2.extractPagesFrom] at h
    simp only [Except.ok.injEq] at h
    subst h
    rfl
  | cons p ps ih =>
    intro i pcs h
    rw [Fritz2.extractPagesFrom] at h
    cases hpc : Fritz2.extractPageContent p i with
    | error e =>
      rw [hpc] at h
      simp at h
    | ok pc =>
      rw [hpc] at h
      cases hrest : Fritz2.extractPagesFrom (i + 1) ps with
      | error e =>
        rw [hrest] at h
        simp at h
      | ok pcs' =>
        rw [hrest] at h
        simp only [Except.ok.injEq] at h
        subst h
        have hnum : pc.pageNum = i := by
          unfold Fritz2.extractPageContent at hpc
          cases htd : p.textDict with
          | error e =>
            rw [htd] at hpc
            simp at hpc
          | ok bs =>
            rw [htd] at hpc
            simp only [Except.ok.injEq] at hpc
            rw [← hpc]
        rw [List.map_cons, hnum, ih (i + 1) pcs' hrest]
        rfl

/-- C5: page container counts.  For fritz_test and pdfplumber (under the
hypothesis that no line of the library-supplied page HTML or extracted text
itself begins with the container marker), and for fritz_test2 (under the
hypothesis that the library-supplied span texts, image formats, image
payloads, and the document name are newline-free), the output contains
exactly one page container line per page, with ids 1..n in order; the last
conjunct shows extraction numbers pages by position, so the fritz_test2 ids
are 1..n as well. -/
theorem spec_C5 :
    (∀ pages : List Str,
      (∀ ph ∈ pages, ∀ l ∈ splitNl ph, leadsWith markerP l = false) →
      markedBy markerP (FritzT.docHtml pages) =
        (List.range pages.length).map (fun i => FritzT.pageDivLine (i + 1)) ∧
      (markedBy markerP (FritzT.docHtml pages)).length = pages.length) ∧
    (∀ pages : List (Option Str),
      (∀ t, some t ∈ pages → ∀ l ∈ splitNl t, leadsWith markerP l = false) →
      markedBy markerP (Plumber.docHtml pages) =
        (List.range pages.length).map (fun i => FritzT.pageDivLine (i + 1)) ∧
      (markedBy markerP (Plumber.docHtml pages)).length = pages.length) ∧
    (∀ (pcs : List Fritz2.PageContent) (name : Str),
      (∀ pc ∈ pcs, cleanPage pc) → '\n' ∉ name →
      markedBy markerF2 (Fritz2.genCompleteHtml { pages := pcs } name) =
        pcs.map (fun pc => Fritz2.pageDivLine (pc.pageNum + 1)) ∧
      (markedBy markerF2 (Fritz2.genCompleteHtml { pages := pcs } name)).length =
        pcs.length) ∧
    (∀ (i : Nat) (raws : List Fritz2.RawPage) (pcs : List Fritz2.PageContent),
      Fritz2.extractPagesFrom i raws = .ok pcs →
      pcs.map (fun pc => pc.pageNum) = List.range' i raws.length) := by
  refine ⟨?_, ?_, ?_, fun i raws pcs h => extractPagesFrom_pageNums raws i pcs h⟩
  · intro pages h
    have heq := markedP_fritzT_doc pages h
    exact ⟨heq, by rw [heq]; simp⟩
  · intro pages h
    have heq := markedP_plumber_doc pages h
    exact ⟨heq, by rw [heq]; simp⟩
  · intro pcs name hclean hname
    have heq := markedF2_doc pcs name hclean hname
    exact ⟨heq, by rw [heq]; simp⟩

/-- A concrete raw page whose library calls all succeed trivially. -/
def witRaw : Fritz2.RawPage :=
  { width := 612, height := 792, textDict := .ok [], imageAttempts := [],
    drawingsResult := .ok [] }

/-- The page content extracted from witRaw at position 0. -/
def witExtracted : Fritz2.PageContent :=
  { pageNum := 0, width := 612, height := 792, textBlocks := [], images := [],
    drawings := [] }

/-- Witness for C5 at concrete one-page documents. -/
theorem spec_C5_witness :
    (markedBy markerP (FritzT.docHtml [("<p>x</p>").data]) =
        (List.range 1).map (fun i => FritzT.pageDivLine (i + 1)) ∧
      (markedBy markerP (FritzT.docHtml [("<p>x</p>").data])).length = 1) ∧
    (markedBy markerP (Plumber.docHtml [some (("hello").data)]) =
        (List.range 1).map (fun i => FritzT.pageDivLine (i + 1)) ∧
      (markedBy markerP (Plumber.docHtml [some (("hello").data)])).length = 1) ∧
    (markedBy markerF2 (Fritz2.genCompleteHtml { pages := [witPage] }
          (("doc").data)) =
        [witPage].map (fun pc => Fritz2.pageDivLine (pc.pageNum + 1)) ∧
      (markedBy markerF2 (Fritz2.genCompleteHtml { pages := [witPage] }
          (("doc").data))).length = 1) ∧
    ([witExtracted].map (fun pc => pc.pageNum) = List.range' 0 1) :=
  ⟨spec_C5.1 [("<p>x</p>").data] (by decide),
    spec_C5.2.1 [some (("hello").data)] (by
      intro t ht
      rw [List.mem_singleton] at ht
      injection ht with ht'
      subst ht'
      decide),
    spec_C5.2.2.1 [witPage] (("doc").data) (by
      intro pc hpc
      rw [List.mem_singleton] at hpc
      subst hpc
      unfold cleanPage
      exact ⟨by decide, by decide⟩) (by decide),
    spec_C5.2.2.2 0 [witRaw] [witExtracted] rfl⟩

end Pdf2Html
